import Mathlib

/-!
Verification development for the e2ee-messenger repository.

The repository's core consists of a client-side `CryptoManager`
(app/src/crypto/crypto.ts), the zustand chat store
(app/src/store/chatStore.ts), the `ChatScreen` read-receipt effect,
a client `WebSocketService`, and on the server a Go websocket `Hub`
(server/internal/websocket) plus HTTP `Handlers`
(server/internal/handlers/handlers.go).

This file gives a shallow embedding of those components and proves or
refutes the specification's claims about them.  Platform primitives the
code calls (`Buffer.from(...).toString('base64')`, UTF-8 transcoding,
`JSON.stringify`/`JSON.parse` on the fixed message-envelope shape) are
modelled concretely below; the JSON model accepts exactly the canonical
serialization the code itself produces (a strict subset of what the
lenient platform decoders accept, which is sound for every success
result used in a theorem).
-/

namespace Wire

/-- Base64 alphabet (RFC 4648): value below 64 to its digit character. -/
def base64Char (n : Nat) : Char :=
  if n < 26 then Char.ofNat (65 + n)
  else if n < 52 then Char.ofNat (97 + (n - 26))
  else if n < 62 then Char.ofNat (48 + (n - 52))
  else if n = 62 then '+'
  else '/'

/-- Inverse of the base64 alphabet. -/
def base64Val (c : Char) : Option Nat :=
  if 65 ≤ c.toNat ∧ c.toNat ≤ 90 then some (c.toNat - 65)
  else if 97 ≤ c.toNat ∧ c.toNat ≤ 122 then some (26 + (c.toNat - 97))
  else if 48 ≤ c.toNat ∧ c.toNat ≤ 57 then some (52 + (c.toNat - 48))
  else if c = '+' then some 62
  else if c = '/' then some 63
  else none

/-- Base64 encoding of a byte list, with '=' padding, as produced by
Node's `Buffer.prototype.toString('base64')`. -/
def base64Encode : List Nat → List Char
  | [] => []
  | [b0] => [base64Char (b0 / 4), base64Char (b0 % 4 * 16), '=', '=']
  | [b0, b1] =>
      [base64Char (b0 / 4), base64Char (b0 % 4 * 16 + b1 / 16),
       base64Char (b1 % 16 * 4), '=']
  | b0 :: b1 :: b2 :: rest =>
      base64Char (b0 / 4) :: base64Char (b0 % 4 * 16 + b1 / 16) ::
      base64Char (b1 % 16 * 4 + b2 / 64) :: base64Char (b2 % 64) ::
      base64Encode rest

/-- Base64 decoding, defined on well-formed base64 text. -/
def base64Decode : List Char → Option (List Nat)
  | [] => some []
  | a :: b :: c :: d :: rest =>
    match base64Val a, base64Val b with
    | some va, some vb =>
      if c = '=' then
        if d = '=' then (if rest = [] then some [va * 4 + vb / 16] else none)
        else none
      else
        match base64Val c with
        | some vc =>
          if d = '=' then
            (if rest = [] then some [va * 4 + vb / 16, vb % 16 * 16 + vc / 4]
             else none)
          else
            match base64Val d, base64Decode rest with
            | some vd, some tail =>
                some ((va * 4 + vb / 16) :: (vb % 16 * 16 + vc / 4) ::
                      (vc % 4 * 64 + vd) :: tail)
            | _, _ => none
        | none => none
    | _, _ => none
  | _ => none

theorem base64Val_char {n : Nat} (h : n < 64) : base64Val (base64Char n) = some n := by
  revert h
  revert n
  decide

theorem base64Char_ne_pad {n : Nat} (h : n < 64) : base64Char n ≠ '=' := by
  revert h
  revert n
  decide

theorem base64_decode_encode :
    ∀ bs : List Nat, (∀ b ∈ bs, b < 256) → base64Decode (base64Encode bs) = some bs := by
  have key : ∀ fuel bs, bs.length ≤ fuel → (∀ b ∈ bs, b < 256) →
      base64Decode (base64Encode bs) = some bs := by
    intro fuel
    induction fuel with
    | zero =>
      intro bs hlen _
      have : bs = [] := List.eq_nil_of_length_eq_zero (Nat.le_zero.mp hlen)
      subst this
      simp [base64Encode, base64Decode]
    | succ m ih =>
      intro bs hlen hb
      match bs with
      | [] => simp [base64Encode, base64Decode]
      | [b0] =>
        have h0 : b0 < 256 := hb b0 (by simp)
        have hs0 : b0 / 4 < 64 := by omega
        have hs1 : b0 % 4 * 16 < 64 := by omega
        simp [base64Encode, base64Decode, base64Val_char hs0, base64Val_char hs1]
        omega
      | [b0, b1] =>
        have h0 : b0 < 256 := hb b0 (by simp)
        have h1 : b1 < 256 := hb b1 (by simp)
        have hs0 : b0 / 4 < 64 := by omega
        have hs1 : b0 % 4 * 16 + b1 / 16 < 64 := by omega
        have hs2 : b1 % 16 * 4 < 64 := by omega
        simp [base64Encode, base64Decode, base64Val_char hs0, base64Val_char hs1,
          base64Val_char hs2, base64Char_ne_pad hs2]
        omega
      | b0 :: b1 :: b2 :: rest =>
        have h0 : b0 < 256 := hb b0 (by simp)
        have h1 : b1 < 256 := hb b1 (by simp)
        have h2 : b2 < 256 := hb b2 (by simp)
        have hs0 : b0 / 4 < 64 := by omega
        have hs1 : b0 % 4 * 16 + b1 / 16 < 64 := by omega
        have hs2 : b1 % 16 * 4 + b2 / 64 < 64 := by omega
        have hs3 : b2 % 64 < 64 := by omega
        have hrest : base64Decode (base64Encode rest) = some rest := by
          apply ih rest (by simp at hlen; omega)
          intro b hbmem
          exact hb b (by simp [hbmem])
        simp [base64Encode, base64Decode, base64Val_char hs0, base64Val_char hs1,
          base64Val_char hs2, base64Val_char hs3, base64Char_ne_pad hs2,
          base64Char_ne_pad hs3, hrest]
        omega
  intro bs hb
  exact key bs.length bs le_rfl hb

end Wire

/-- Unicode scalar value to a character, defined when the value is a
valid scalar. -/
def charOfScalar (n : Nat) : Option Char :=
  if Nat.isValidChar n then some (Char.ofNat n) else none

/-- UTF-8 encoding of one character. -/
def utf8EncodeChar (c : Char) : List Nat :=
  if c.toNat < 128 then [c.toNat]
  else if c.toNat < 2048 then [192 + c.toNat / 64, 128 + c.toNat % 64]
  else if c.toNat < 65536 then
    [224 + c.toNat / 4096, 128 + c.toNat / 64 % 64, 128 + c.toNat % 64]
  else
    [240 + c.toNat / 262144, 128 + c.toNat / 4096 % 64, 128 + c.toNat / 64 % 64,
     128 + c.toNat % 64]

/-- UTF-8 encoding of a character list. -/
def utf8Encode : List Char → List Nat
  | [] => []
  | c :: cs => utf8EncodeChar c ++ utf8Encode cs

/-- One step of UTF-8 decoding: reads one encoded scalar, returns the
character and the remaining bytes. -/
def utf8DecodeStep : List Nat → Option (Char × List Nat)
  | [] => none
  | b0 :: rest =>
    if b0 < 128 then (charOfScalar b0).map (fun c => (c, rest))
    else if b0 < 192 then none
    else if b0 < 224 then
      match rest with
      | b1 :: rest1 =>
        if 128 ≤ b1 ∧ b1 < 192 then
          (charOfScalar ((b0 - 192) * 64 + (b1 - 128))).map (fun c => (c, rest1))
        else none
      | [] => none
    else if b0 < 240 then
      match rest with
      | b1 :: b2 :: rest2 =>
        if (128 ≤ b1 ∧ b1 < 192) ∧ (128 ≤ b2 ∧ b2 < 192) then
          (charOfScalar ((b0 - 224) * 4096 + (b1 - 128) * 64 + (b2 - 128))).map
            (fun c => (c, rest2))
        else none
      | _ => none
    else if b0 < 248 then
      match rest with
      | b1 :: b2 :: b3 :: rest3 =>
        if (128 ≤ b1 ∧ b1 < 192) ∧ (128 ≤ b2 ∧ b2 < 192) ∧ (128 ≤ b3 ∧ b3 < 192) then
          (charOfScalar ((b0 - 240) * 262144 + (b1 - 128) * 4096 +
              (b2 - 128) * 64 + (b3 - 128))).map (fun c => (c, rest3))
        else none
      | _ => none
    else none

/-- UTF-8 decoding with explicit fuel (the byte count suffices). -/
def utf8DecodeAux : Nat → List Nat → Option (List Char)
  | _, [] => some []
  | 0, _ :: _ => none
  | fuel + 1, b0 :: rest =>
    (utf8DecodeStep (b0 :: rest)).bind fun p =>
      (utf8DecodeAux fuel p.2).map fun cs => p.1 :: cs

/-- UTF-8 decoding, defined on well-formed UTF-8 byte lists. -/
def utf8Decode (bs : List Nat) : Option (List Char) :=
  utf8DecodeAux bs.length bs

theorem char_toNat_isValidChar (c : Char) : Nat.isValidChar c.toNat := by
  have h := c.valid
  unfold UInt32.isValidChar at h
  exact h

theorem char_toNat_lt (c : Char) : c.toNat < 1114112 := by
  rcases char_toNat_isValidChar c with h | h
  · omega
  · omega

theorem charOfScalar_toNat (c : Char) : charOfScalar c.toNat = some c := by
  simp [charOfScalar, char_toNat_isValidChar c, Char.ofNat_toNat]

theorem utf8EncodeChar_bytes_lt (c : Char) : ∀ b ∈ utf8EncodeChar c, b < 256 := by
  intro b hb
  have hlt := char_toNat_lt c
  unfold utf8EncodeChar at hb
  split at hb
  · simp at hb
    omega
  · split at hb
    · simp at hb
      rcases hb with h | h <;> omega
    · split at hb
      · simp at hb
        rcases hb with h | h | h <;> omega
      · simp at hb
        rcases hb with h | h | h | h <;> omega

theorem utf8EncodeChar_length_pos (c : Char) : 0 < (utf8EncodeChar c).length := by
  unfold utf8EncodeChar
  split
  · simp
  · split
    · simp
    · split
      · simp
      · simp

theorem utf8DecodeStep_encodeChar (c : Char) (rest : List Nat) :
    utf8DecodeStep (utf8EncodeChar c ++ rest) = some (c, rest) := by
  have hval := char_toNat_isValidChar c
  have hlt := char_toNat_lt c
  unfold utf8EncodeChar
  by_cases h1 : c.toNat < 128
  · simp only [if_pos h1, List.cons_append, List.nil_append, utf8DecodeStep]
    rw [charOfScalar_toNat c]
    rfl
  · by_cases h2 : c.toNat < 2048
    · simp only [if_neg h1, if_pos h2, List.cons_append, List.nil_append, utf8DecodeStep]
      rw [if_neg (by omega), if_neg (by omega), if_pos (by omega), if_pos ⟨by omega, by omega⟩]
      have e : (192 + c.toNat / 64 - 192) * 64 + (128 + c.toNat % 64 - 128) = c.toNat := by
        omega
      rw [e, charOfScalar_toNat c]
      rfl
    · by_cases h3 : c.toNat < 65536
      · simp only [if_neg h1, if_neg h2, if_pos h3, List.cons_append, List.nil_append,
          utf8DecodeStep]
        rw [if_neg (by omega), if_neg (by omega), if_neg (by omega), if_pos (by omega),
          if_pos ⟨⟨by omega, by omega⟩, by omega, by omega⟩]
        have h64 : c.toNat / 64 / 64 = c.toNat / 4096 := by
          rw [Nat.div_div_eq_div_mul]
        have e : (224 + c.toNat / 4096 - 224) * 4096 + (128 + c.toNat / 64 % 64 - 128) * 64 +
            (128 + c.toNat % 64 - 128) = c.toNat := by
          omega
        rw [e, charOfScalar_toNat c]
        rfl
      · simp only [if_neg h1, if_neg h2, if_neg h3, List.cons_append, List.nil_append,
          utf8DecodeStep]
        rw [if_neg (by omega), if_neg (by omega), if_neg (by omega), if_neg (by omega),
          if_pos (by omega),
          if_pos ⟨⟨by omega, by omega⟩, ⟨by omega, by omega⟩, by omega, by omega⟩]
        have h64 : c.toNat / 64 / 64 = c.toNat / 4096 := by
          rw [Nat.div_div_eq_div_mul]
        have h4096 : c.toNat / 4096 / 64 = c.toNat / 262144 := by
          rw [Nat.div_div_eq_div_mul]
        have e : (240 + c.toNat / 262144 - 240) * 262144 +
            (128 + c.toNat / 4096 % 64 - 128) * 4096 +
            (128 + c.toNat / 64 % 64 - 128) * 64 + (128 + c.toNat % 64 - 128) = c.toNat := by
          omega
        rw [e, charOfScalar_toNat c]
        rfl

theorem utf8DecodeAux_encode (cs : List Char) :
    ∀ fuel, (utf8Encode cs).length ≤ fuel → utf8DecodeAux fuel (utf8Encode cs) = some cs := by
  induction cs with
  | nil =>
    intro fuel _
    cases fuel <;> rfl
  | cons c cs ih =>
    intro fuel hfuel
    have hpos := utf8EncodeChar_length_pos c
    have hne : utf8Encode (c :: cs) ≠ [] := by
      have htot : (utf8Encode (c :: cs)).length = (utf8EncodeChar c).length +
          (utf8Encode cs).length := by
        simp only [utf8Encode, List.length_append]
      intro hcontra
      rw [hcontra] at htot
      simp only [List.length_nil] at htot
      omega
    cases fuel with
    | zero =>
      exfalso
      have : (utf8Encode (c :: cs)).length = 0 := Nat.le_zero.mp hfuel
      exact hne (List.eq_nil_of_length_eq_zero this)
    | succ f =>
      have hshape : ∃ b0 rest, utf8Encode (c :: cs) = b0 :: rest := by
        cases hsh : utf8Encode (c :: cs) with
        | nil => exact absurd hsh hne
        | cons b0 rest => exact ⟨b0, rest, rfl⟩
      obtain ⟨b0, rest, hsh⟩ := hshape
      have hstep : utf8DecodeStep (utf8Encode (c :: cs)) = some (c, utf8Encode cs) := by
        simp only [utf8Encode]
        exact utf8DecodeStep_encodeChar c (utf8Encode cs)
      have hlen : (utf8Encode cs).length ≤ f := by
        have htot : (utf8Encode (c :: cs)).length = (utf8EncodeChar c).length +
            (utf8Encode cs).length := by
          simp only [utf8Encode, List.length_append]
        omega
      rw [hsh]
      simp only [utf8DecodeAux]
      rw [← hsh, hstep]
      simp [ih f hlen]

theorem utf8_decode_encode (cs : List Char) : utf8Decode (utf8Encode cs) = some cs :=
  utf8DecodeAux_encode cs (utf8Encode cs).length le_rfl

theorem utf8Encode_bytes_lt (cs : List Char) : ∀ b ∈ utf8Encode cs, b < 256 := by
  induction cs with
  | nil => simp [utf8Encode]
  | cons c cs ih =>
    intro b hb
    simp only [utf8Encode, List.mem_append] at hb
    rcases hb with h | h
    · exact utf8EncodeChar_bytes_lt c b h
    · exact ih b h

/-- Lowercase hex digit character for a value below 16. -/
def hexDigit (n : Nat) : Char :=
  if n < 10 then Char.ofNat (48 + n) else Char.ofNat (87 + n)

/-- Inverse of hex digit characters (accepts both cases, as JSON does). -/
def hexVal (c : Char) : Option Nat :=
  if 48 ≤ c.toNat ∧ c.toNat ≤ 57 then some (c.toNat - 48)
  else if 97 ≤ c.toNat ∧ c.toNat ≤ 102 then some (c.toNat - 87)
  else if 65 ≤ c.toNat ∧ c.toNat ≤ 70 then some (c.toNat - 55)
  else none

/-- Escaping of one character inside a JSON string literal, as
`JSON.stringify` performs it: quote, backslash and the named control
characters get two-character escapes, other control characters get a
`\u00xx` escape, everything else is emitted verbatim. -/
def jsonEscapeChar (c : Char) : List Char :=
  if c = '"' then ['\\', '"']
  else if c = '\\' then ['\\', '\\']
  else if c = '\x08' then ['\\', 'b']
  else if c = '\x0c' then ['\\', 'f']
  else if c = '\n' then ['\\', 'n']
  else if c = '\r' then ['\\', 'r']
  else if c = '\t' then ['\\', 't']
  else if c.toNat < 32 then
    ['\\', 'u', '0', '0', hexDigit (c.toNat / 16), hexDigit (c.toNat % 16)]
  else [c]

/-- Escaping of a whole string body. -/
def jsonEscape : List Char → List Char
  | [] => []
  | c :: cs => jsonEscapeChar c ++ jsonEscape cs

/-- One step of JSON string-literal scanning: returns `none` paired with
the remainder when the closing quote is reached, or the next decoded
character.  Mirrors the string grammar `JSON.parse` accepts. -/
def jsonStrStep : List Char → Option (Option Char × List Char)
  | [] => none
  | c :: cs =>
    if c = '"' then some (none, cs)
    else if c = '\\' then
      match cs with
      | [] => none
      | e :: cs1 =>
        if e = '"' then some (some '"', cs1)
        else if e = '\\' then some (some '\\', cs1)
        else if e = '/' then some (some '/', cs1)
        else if e = 'b' then some (some '\x08', cs1)
        else if e = 'f' then some (some '\x0c', cs1)
        else if e = 'n' then some (some '\n', cs1)
        else if e = 'r' then some (some '\r', cs1)
        else if e = 't' then some (some '\t', cs1)
        else if e = 'u' then
          match cs1 with
          | h1 :: h2 :: h3 :: h4 :: cs2 =>
            match hexVal h1, hexVal h2, hexVal h3, hexVal h4 with
            | some v1, some v2, some v3, some v4 =>
              match charOfScalar (((v1 * 16 + v2) * 16 + v3) * 16 + v4) with
              | some ch => some (some ch, cs2)
              | none => none
            | _, _, _, _ => none
          | _ => none
        else none
    else if c.toNat < 32 then none
    else some (some c, cs)

/-- JSON string-literal body scanning with fuel (length + 1 suffices). -/
def parseJsonStringAux : Nat → List Char → Option (List Char × List Char)
  | 0, _ => none
  | fuel + 1, s =>
    (jsonStrStep s).bind fun p =>
      match p.1 with
      | none => some ([], p.2)
      | some ch => (parseJsonStringAux fuel p.2).map fun q => (ch :: q.1, q.2)

/-- Parses a JSON string-literal body (opening quote already consumed)
up to and including the closing quote, returning the decoded content and
the rest of the input. -/
def parseJsonString (s : List Char) : Option (List Char × List Char) :=
  parseJsonStringAux (s.length + 1) s

theorem hexVal_hexDigit {n : Nat} (h : n < 16) : hexVal (hexDigit n) = some n := by
  revert h
  revert n
  decide

theorem jsonStrStep_escapeChar (c : Char) (t : List Char) :
    jsonStrStep (jsonEscapeChar c ++ t) = some (some c, t) := by
  unfold jsonEscapeChar
  by_cases h1 : c = '"'
  · subst h1
    simp [jsonStrStep]
  · rw [if_neg h1]
    by_cases h2 : c = '\\'
    · subst h2
      simp [jsonStrStep]
    · rw [if_neg h2]
      by_cases h3 : c = '\x08'
      · subst h3
        simp [jsonStrStep]
      · rw [if_neg h3]
        by_cases h4 : c = '\x0c'
        · subst h4
          simp [jsonStrStep]
        · rw [if_neg h4]
          by_cases h5 : c = '\n'
          · subst h5
            simp [jsonStrStep]
          · rw [if_neg h5]
            by_cases h6 : c = '\r'
            · subst h6
              simp [jsonStrStep]
            · rw [if_neg h6]
              by_cases h7 : c = '\t'
              · subst h7
                simp [jsonStrStep]
              · rw [if_neg h7]
                by_cases h8 : c.toNat < 32
                · rw [if_pos h8]
                  have hhi : c.toNat / 16 < 16 := by omega
                  have hlo : c.toNat % 16 < 16 := by omega
                  simp only [List.cons_append, List.nil_append, jsonStrStep]
                  rw [if_neg (by decide), if_pos (by decide), if_neg (by decide),
                    if_neg (by decide), if_neg (by decide), if_neg (by decide),
                    if_neg (by decide), if_neg (by decide), if_neg (by decide),
                    if_neg (by decide), if_pos (by decide)]
                  have h0 : hexVal '0' = some 0 := by decide
                  rw [h0, hexVal_hexDigit hhi, hexVal_hexDigit hlo]
                  have e : ((0 * 16 + 0) * 16 + c.toNat / 16) * 16 + c.toNat % 16 =
                      c.toNat := by omega
                  simp only [e, charOfScalar_toNat c]
                · rw [if_neg h8]
                  simp only [List.cons_append, List.nil_append, jsonStrStep]
                  rw [if_neg h1, if_neg h2, if_neg (by omega)]

theorem jsonEscapeChar_length_pos (c : Char) : 0 < (jsonEscapeChar c).length := by
  unfold jsonEscapeChar
  split
  · simp
  all_goals split
  all_goals first
  | simp
  | split
  all_goals first
  | simp
  | split
  all_goals first
  | simp
  | split
  all_goals first
  | simp
  | split
  all_goals first
  | simp
  | split
  all_goals first
  | simp
  | split
  all_goals simp

theorem parseJsonStringAux_escape (s : List Char) :
    ∀ fuel rest, (jsonEscape s).length + 1 ≤ fuel →
      parseJsonStringAux fuel (jsonEscape s ++ '"' :: rest) = some (s, rest) := by
  induction s with
  | nil =>
    intro fuel rest hfuel
    match fuel with
    | f + 1 =>
      simp only [jsonEscape, List.nil_append, parseJsonStringAux]
      have hq : jsonStrStep ('"' :: rest) = some (none, rest) := by
        simp [jsonStrStep]
      rw [hq]
      rfl
  | cons c cs ih =>
    intro fuel rest hfuel
    have hpos := jsonEscapeChar_length_pos c
    have hlen : (jsonEscape (c :: cs)).length =
        (jsonEscapeChar c).length + (jsonEscape cs).length := by
      simp only [jsonEscape, List.length_append]
    match fuel with
    | 0 => omega
    | f + 1 =>
      have hshape : jsonEscape (c :: cs) ++ '"' :: rest =
          jsonEscapeChar c ++ (jsonEscape cs ++ '"' :: rest) := by
        simp [jsonEscape, List.append_assoc]
      have hne : ∃ b0 t, jsonEscape (c :: cs) ++ '"' :: rest = b0 :: t := by
        rcases hc : jsonEscapeChar c with _ | ⟨b0, t⟩
        · exfalso
          rw [hc] at hpos
          simp at hpos
        · exact ⟨b0, t ++ (jsonEscape cs ++ '"' :: rest), by simp [hshape, hc]⟩
      obtain ⟨b0, t, hbt⟩ := hne
      rw [hbt]
      simp only [parseJsonStringAux]
      rw [← hbt, hshape, jsonStrStep_escapeChar c]
      have hrec : parseJsonStringAux f (jsonEscape cs ++ '"' :: rest) = some (cs, rest) := by
        apply ih
        omega
      simp [hrec]

theorem parseJsonString_escape (s rest : List Char) :
    parseJsonString (jsonEscape s ++ '"' :: rest) = some (s, rest) := by
  apply parseJsonStringAux_escape
  simp only [List.length_append, List.length_cons]
  omega

/-- Decimal digit character. -/
def digitChar (n : Nat) : Char := Char.ofNat (48 + n)

/-- Decimal representation of a natural number, most significant digit
first, as JavaScript prints an integral number. -/
def natToChars (n : Nat) : List Char :=
  if n < 10 then [digitChar n] else natToChars (n / 10) ++ [digitChar (n % 10)]
termination_by n
decreasing_by omega

/-- Power of ten matching the digit count of the argument. -/
def npow10 (n : Nat) : Nat :=
  if n < 10 then 10 else npow10 (n / 10) * 10
termination_by n
decreasing_by omega

/-- Greedy decimal scanner: accumulates digits, stops at the first
non-digit. -/
def parseNatAux : List Char → Nat → Nat × List Char
  | [], acc => (acc, [])
  | c :: cs, acc =>
    if 48 ≤ c.toNat ∧ c.toNat ≤ 57 then parseNatAux cs (acc * 10 + (c.toNat - 48))
    else (acc, c :: cs)

/-- Parses a decimal number (at least one digit required). -/
def parseNatChars : List Char → Option (Nat × List Char)
  | [] => none
  | c :: cs =>
    if 48 ≤ c.toNat ∧ c.toNat ≤ 57 then some (parseNatAux (c :: cs) 0) else none

theorem digitChar_toNat {d : Nat} (h : d < 10) :
    (digitChar d).toNat = 48 + d ∧ 48 ≤ (digitChar d).toNat ∧ (digitChar d).toNat ≤ 57 := by
  revert h
  revert d
  decide

theorem parseNatAux_natToChars (n : Nat) :
    ∀ acc rest, parseNatAux (natToChars n ++ rest) acc =
      parseNatAux rest (acc * npow10 n + n) := by
  induction n using Nat.strong_induction_on with
  | _ n ih =>
    intro acc rest
    by_cases h : n < 10
    · rw [natToChars, if_pos h, npow10, if_pos h]
      obtain ⟨he, hlo, hhi⟩ := digitChar_toNat h
      simp only [List.cons_append, List.nil_append, parseNatAux]
      rw [if_pos ⟨hlo, hhi⟩, he]
      congr 1
      omega
    · rw [natToChars, if_neg h, npow10, if_neg h]
      rw [List.append_assoc]
      rw [ih (n / 10) (by omega) acc ([digitChar (n % 10)] ++ rest)]
      obtain ⟨he, hlo, hhi⟩ := digitChar_toNat (show n % 10 < 10 by omega)
      simp only [List.cons_append, List.nil_append, parseNatAux]
      rw [if_pos ⟨hlo, hhi⟩, he]
      congr 1
      have hmul : acc * (npow10 (n / 10) * 10) = acc * npow10 (n / 10) * 10 := by
        ring
      have hexp : (acc * npow10 (n / 10) + n / 10) * 10 =
          acc * npow10 (n / 10) * 10 + n / 10 * 10 := by
        ring
      omega

theorem natToChars_all_digits (n : Nat) :
    ∀ c ∈ natToChars n, 48 ≤ c.toNat ∧ c.toNat ≤ 57 := by
  induction n using Nat.strong_induction_on with
  | _ n ih =>
    intro c hc
    by_cases h : n < 10
    · rw [natToChars, if_pos h] at hc
      simp at hc
      subst hc
      obtain ⟨_, hlo, hhi⟩ := digitChar_toNat h
      exact ⟨hlo, hhi⟩
    · rw [natToChars, if_neg h] at hc
      simp only [List.mem_append, List.mem_singleton] at hc
      rcases hc with hc | hc
      · exact ih (n / 10) (by omega) c hc
      · subst hc
        obtain ⟨_, hlo, hhi⟩ := digitChar_toNat (show n % 10 < 10 by omega)
        exact ⟨hlo, hhi⟩

theorem natToChars_ne_nil (n : Nat) : natToChars n ≠ [] := by
  by_cases h : n < 10
  · rw [natToChars, if_pos h]
    simp
  · rw [natToChars, if_neg h]
    simp

theorem parseNatChars_natToChars (n : Nat) (rest : List Char)
    (hrest : ∀ c cs, rest = c :: cs → ¬(48 ≤ c.toNat ∧ c.toNat ≤ 57)) :
    parseNatChars (natToChars n ++ rest) = some (n, rest) := by
  rcases hd : natToChars n with _ | ⟨c, cs⟩
  · exact absurd hd (natToChars_ne_nil n)
  · have hcd : 48 ≤ c.toNat ∧ c.toNat ≤ 57 := by
      apply natToChars_all_digits n
      rw [hd]
      simp
    have hkey := parseNatAux_natToChars n 0 rest
    rw [hd] at hkey
    simp only [List.cons_append, parseNatChars]
    rw [if_pos hcd]
    rw [show (c :: (cs ++ rest)) = ((c :: cs) ++ rest) by simp] at *
    rw [hkey]
    have : (0 : Nat) * npow10 n + n = n := by
      simp
    rw [this]
    rcases rest with _ | ⟨r, rs⟩
    · rfl
    · simp only [parseNatAux]
      rw [if_neg (hrest r rs rfl)]

namespace Crypto

/-- Message types of the crypto module (crypto/types.ts). -/
inductive MsgType
  | text
  | file
  | system
deriving DecidableEq, Repr

/-- The EncryptedMessage envelope of crypto/types.ts.  Fields are listed
in the order in which `sendMessage` (chatStore.ts) constructs the object
literal, which is the property order `JSON.stringify` serializes. -/
structure EncryptedMessage where
  messageId : String
  senderId : String
  recipientId : String
  content : String
  type : MsgType
  timestamp : Nat
deriving DecidableEq, Repr

/-- The DecryptedMessage shape of crypto/types.ts: the envelope plus the
`plaintext` field `decryptMessage` fills in. -/
structure DecryptedMessage where
  messageId : String
  senderId : String
  recipientId : String
  content : String
  type : MsgType
  timestamp : Nat
  plaintext : String
deriving DecidableEq, Repr

/-- Serialization of the `type` discriminator string. -/
def typeChars : MsgType → List Char
  | .text => ['t', 'e', 'x', 't']
  | .file => ['f', 'i', 'l', 'e']
  | .system => ['s', 'y', 's', 't', 'e', 'm']

/-- Inverse of `typeChars`. -/
def typeOfChars (cs : List Char) : Option MsgType :=
  if cs = ['t', 'e', 'x', 't'] then some .text
  else if cs = ['f', 'i', 'l', 'e'] then some .file
  else if cs = ['s', 'y', 's', 't', 'e', 'm'] then some .system
  else none

/-- Consumes an expected literal character sequence from the input. -/
def dropLit : List Char → List Char → Option (List Char)
  | [], s => some s
  | _ :: _, [] => none
  | l :: ls, c :: cs => if c = l then dropLit ls cs else none

theorem dropLit_append (lit : List Char) : ∀ rest, dropLit lit (lit ++ rest) = some rest := by
  induction lit with
  | nil =>
    intro rest
    rfl
  | cons l ls ih =>
    intro rest
    simp only [List.cons_append, dropLit, if_pos rfl]
    exact ih rest

/-- JSON literal segments of the canonical envelope serialization. -/
def litMessageId : List Char :=
  ['\x7b', '"', 'm', 'e', 's', 's', 'a', 'g', 'e', 'I', 'd', '"', ':', '"']

/-- Segment between the messageId and senderId values. -/
def litSenderId : List Char :=
  [',', '"', 's', 'e', 'n', 'd', 'e', 'r', 'I', 'd', '"', ':', '"']

/-- Segment between the senderId and recipientId values. -/
def litRecipientId : List Char :=
  [',', '"', 'r', 'e', 'c', 'i', 'p', 'i', 'e', 'n', 't', 'I', 'd', '"', ':', '"']

/-- Segment between the recipientId and content values. -/
def litContent : List Char :=
  [',', '"', 'c', 'o', 'n', 't', 'e', 'n', 't', '"', ':', '"']

/-- Segment between the content and type values. -/
def litType : List Char :=
  [',', '"', 't', 'y', 'p', 'e', '"', ':', '"']

/-- Segment between the type value and the timestamp value. -/
def litTimestamp : List Char :=
  [',', '"', 't', 'i', 'm', 'e', 's', 't', 'a', 'm', 'p', '"', ':']

/-- Closing brace of the serialized envelope. -/
def litClose : List Char := ['\x7d']

/-- The `JSON.stringify` image of an envelope, with the object-literal
property order of `sendMessage` and escaping as `JSON.stringify`
performs it. -/
def stringifyMessage (m : EncryptedMessage) : List Char :=
  litMessageId ++ (jsonEscape m.messageId.data ++ '"' ::
    (litSenderId ++ (jsonEscape m.senderId.data ++ '"' ::
      (litRecipientId ++ (jsonEscape m.recipientId.data ++ '"' ::
        (litContent ++ (jsonEscape m.content.data ++ '"' ::
          (litType ++ (jsonEscape (typeChars m.type) ++ '"' ::
            (litTimestamp ++ (natToChars m.timestamp ++ litClose)))))))))))

/-- The `JSON.parse` model for the envelope: accepts the canonical
serialization produced by `stringifyMessage` (a strict subset of the
inputs the lenient platform parser accepts). -/
def parseMessage (s : List Char) : Option EncryptedMessage :=
  match dropLit litMessageId s with
  | none => none
  | some r1 =>
    match parseJsonString r1 with
    | none => none
    | some (mid, r2) =>
      match dropLit litSenderId r2 with
      | none => none
      | some r3 =>
        match parseJsonString r3 with
        | none => none
        | some (sid, r4) =>
          match dropLit litRecipientId r4 with
          | none => none
          | some r5 =>
            match parseJsonString r5 with
            | none => none
            | some (rid, r6) =>
              match dropLit litContent r6 with
              | none => none
              | some r7 =>
                match parseJsonString r7 with
                | none => none
                | some (cont, r8) =>
                  match dropLit litType r8 with
                  | none => none
                  | some r9 =>
                    match parseJsonString r9 with
                    | none => none
                    | some (tych, r10) =>
                      match typeOfChars tych with
                      | none => none
                      | some ty =>
                        match dropLit litTimestamp r10 with
                        | none => none
                        | some r11 =>
                          match parseNatChars r11 with
                          | none => none
                          | some (ts, r12) =>
                            match dropLit litClose r12 with
                            | some [] =>
                              some { messageId := String.mk mid,
                                     senderId := String.mk sid,
                                     recipientId := String.mk rid,
                                     content := String.mk cont,
                                     type := ty,
                                     timestamp := ts }
                            | _ => none

theorem typeOfChars_typeChars (t : MsgType) : typeOfChars (typeChars t) = some t := by
  cases t <;> rfl

theorem parseMessage_stringify (m : EncryptedMessage) :
    parseMessage (stringifyMessage m) = some m := by
  have hts : parseNatChars (natToChars m.timestamp ++ litClose) =
      some (m.timestamp, litClose) := by
    apply parseNatChars_natToChars
    intro c cs hc
    simp only [litClose, List.cons.injEq] at hc
    obtain ⟨h1, _⟩ := hc
    subst h1
    decide
  have hcl : dropLit litClose litClose = some [] := rfl
  unfold stringifyMessage parseMessage
  simp only [dropLit_append, parseJsonString_escape, typeOfChars_typeChars, hts, hcl]

/-- Identity key pair (crypto/types.ts). -/
structure IdentityKeyPair where
  publicKey : String
  privateKey : String
deriving DecidableEq, Repr

/-- Prekey bundle (crypto/types.ts). -/
structure PreKeyBundle where
  identityKey : String
  deviceId : String
  preKeyId : String
  preKey : String
  signedPreKeyId : String
  signedPreKey : String
  signature : String
deriving DecidableEq, Repr

/-- Session states (crypto/types.ts). -/
inductive SessionState
  | initialized
  | active
  | expired
deriving DecidableEq, Repr

/-- Session record (crypto/types.ts); the `Date` fields are modelled as
millisecond timestamps. -/
structure Session where
  id : String
  peerId : String
  deviceId : String
  state : SessionState
  createdAt : Nat
  lastUsed : Nat
deriving DecidableEq, Repr

/-- Error codes of `CryptoError` (crypto/types.ts). -/
inductive ErrCode
  | INVALID_KEY
  | ENCRYPTION_FAILED
  | DECRYPTION_FAILED
  | SESSION_EXPIRED
  | INVALID_MESSAGE
deriving DecidableEq, Repr

/-- A `CryptoError`: code plus message, as `createCryptoError` builds it. -/
structure CryptoErr where
  code : ErrCode
  message : String
deriving DecidableEq, Repr

/-- The error thrown when a session id is not registered: the spec calls
this condition `SessionNotFound`; the code realizes it as
`createCryptoError('SESSION_EXPIRED', 'Session not found')`. -/
def sessionNotFoundError : CryptoErr :=
  { code := .SESSION_EXPIRED, message := "Session not found" }

/-- The `DECRYPTION_FAILED` error of `decryptText`/`decryptMessage`. -/
def decryptionFailedError : CryptoErr :=
  { code := .DECRYPTION_FAILED, message := "Failed to decrypt message" }

/-- The `INVALID_KEY` error thrown for a malformed prekey bundle. -/
def invalidBundleError : CryptoErr :=
  { code := .INVALID_KEY, message := "Invalid prekey bundle" }

/-- KeyVerification result of `generateSafetyNumber` (the optional
`verifiedAt` is absent on creation and omitted here). -/
structure KeyVerification where
  safetyNumber : String
  fingerprint : String
  isVerified : Bool
deriving DecidableEq, Repr

/-- Lookup in a JavaScript `Map` modelled as an association list. -/
def mapGet {α : Type} (l : List (String × α)) (k : String) : Option α :=
  (l.find? (fun p => p.1 == k)).map Prod.snd

/-- Update in a JavaScript `Map`: overwrite in place (keeping insertion
order) if the key exists, append otherwise. -/
def mapSet {α : Type} : List (String × α) → String → α → List (String × α)
  | [], k, v => [(k, v)]
  | p :: ps, k, v => if p.1 == k then (k, v) :: ps else p :: mapSet ps k v

/-- Environment inputs of the nondeterministic platform primitives the
manager consumes: `Date.now()` and the two `Math.random()` draws of
`generateIdentity`. -/
structure Env where
  now : Nat
  rand1 : String
  rand2 : String

/-- In-memory state of the `CryptoManager` singleton plus the
SecureStore copy of the identity.  Every session mutation is written
through to SecureStore (`saveSessions`) and `loadSessions` reads the
same data back, so the session store is represented once. -/
structure CryptoState where
  identityKeyPair : Option IdentityKeyPair
  storedIdentity : Option IdentityKeyPair
  sessions : List (String × Session)
  preKeys : List (String × String)

/-- The empty manager state (fresh install). -/
def emptyState : CryptoState :=
  { identityKeyPair := none, storedIdentity := none, sessions := [], preKeys := [] }

/-- Decimal string of a number, as JavaScript prints it. -/
def natString (n : Nat) : String := String.mk (natToChars n)

/-- CryptoManager.generateIdentity: hashes time- and randomness-derived
strings into a fresh key pair and persists it.  `digest` models the
(deterministic) SHA-256 of expo-crypto. -/
def generateIdentity (digest : String → String) (st : CryptoState) (env : Env) :
    IdentityKeyPair × CryptoState :=
  let publicKey := digest ("public_" ++ natString env.now ++ "_" ++ env.rand1)
  let privateKey := digest ("private_" ++ natString env.now ++ "_" ++ env.rand2)
  let keyPair : IdentityKeyPair := { publicKey := publicKey, privateKey := privateKey }
  (keyPair, { st with identityKeyPair := some keyPair, storedIdentity := some keyPair })

/-- CryptoManager.getIdentityKeyPair: memory first, then SecureStore,
generating a fresh identity only when neither holds one. -/
def getIdentityKeyPair (digest : String → String) (st : CryptoState) (env : Env) :
    IdentityKeyPair × CryptoState :=
  match st.identityKeyPair with
  | some kp => (kp, st)
  | none =>
    match st.storedIdentity with
    | some kp => (kp, { st with identityKeyPair := some kp })
    | none => generateIdentity digest st env

/-- Node's `Buffer.from(text).toString('base64')`. -/
def bufferBase64OfString (s : String) : String :=
  String.mk (Wire.base64Encode (utf8Encode s.data))

/-- Node's `Buffer.from(payload, 'base64').toString('utf-8')`, modelled
on well-formed base64/UTF-8 input (the image of the encoder). -/
def stringOfBufferBase64 (s : String) : Option String :=
  (Wire.base64Decode s.data).bind fun bs => (utf8Decode bs).map String.mk

/-- CryptoManager.encryptText: fails with the SessionNotFound error when
the session id is unknown, otherwise base64-encodes the text and bumps
the session's `lastUsed`. -/
def encryptText (st : CryptoState) (now : Nat) (sessionId text : String) :
    Except CryptoErr (String × CryptoState) :=
  match mapGet st.sessions sessionId with
  | none => .error sessionNotFoundError
  | some session =>
    .ok (bufferBase64OfString text,
         { st with sessions := mapSet st.sessions sessionId { session with lastUsed := now } })

/-- CryptoManager.decryptText: fails with the SessionNotFound error when
the session id is unknown, otherwise base64-decodes the payload and
bumps the session's `lastUsed`. -/
def decryptText (st : CryptoState) (now : Nat) (sessionId payload : String) :
    Except CryptoErr (String × CryptoState) :=
  match mapGet st.sessions sessionId with
  | none => .error sessionNotFoundError
  | some session =>
    match stringOfBufferBase64 payload with
    | none => .error decryptionFailedError
    | some decrypted =>
      .ok (decrypted,
           { st with sessions := mapSet st.sessions sessionId { session with lastUsed := now } })

/-- CryptoManager.encryptMessage: `JSON.stringify` then `encryptText`. -/
def encryptMessage (st : CryptoState) (now : Nat) (sessionId : String)
    (message : EncryptedMessage) : Except CryptoErr (String × CryptoState) :=
  encryptText st now sessionId (String.mk (stringifyMessage message))

/-- CryptoManager.decryptMessage: base64-decodes and `JSON.parse`s the
payload and copies `content` into `plaintext`.  Note that, unlike
`decryptText`, it never consults the session store: the `sessionId`
argument is unused by the implementation. -/
def decryptMessage (st : CryptoState) (sessionId payload : String) :
    Except CryptoErr DecryptedMessage :=
  match stringOfBufferBase64 payload with
  | none => .error decryptionFailedError
  | some plaintext =>
    match parseMessage plaintext.data with
    | none => .error decryptionFailedError
    | some m =>
      .ok { messageId := m.messageId, senderId := m.senderId, recipientId := m.recipientId,
            content := m.content, type := m.type, timestamp := m.timestamp,
            plaintext := m.content }

/-- Session record created by `establishSession`. -/
def mkSession (peerId deviceId : String) (now : Nat) : Session :=
  { id := peerId ++ "_" ++ deviceId, peerId := peerId, deviceId := deviceId,
    state := .initialized, createdAt := now, lastUsed := now }

/-- CryptoManager.establishSession: rejects a bundle whose identityKey
or preKey is empty (JavaScript falsiness for strings), otherwise stores
a fresh `initialized` session under `peerId_deviceId`. -/
def establishSession (st : CryptoState) (now : Nat) (peerId deviceId : String)
    (preKeyBundle : PreKeyBundle) : Except CryptoErr (Session × CryptoState) :=
  let sessionId := peerId ++ "_" ++ deviceId
  if preKeyBundle.identityKey = "" ∨ preKeyBundle.preKey = "" then
    .error invalidBundleError
  else
    let session : Session := mkSession peerId deviceId now
    .ok (session, { st with sessions := mapSet st.sessions sessionId session })

/-- CryptoManager.generateSafetyNumber: hashes the local public identity
key together with the peer id and device id; the fingerprint is the
first 12 characters. -/
def generateSafetyNumber (digest : String → String) (st : CryptoState) (env : Env)
    (peerId deviceId : String) : KeyVerification × CryptoState :=
  let p := getIdentityKeyPair digest st env
  let combined := p.1.publicKey ++ "_" ++ peerId ++ "_" ++ deviceId
  let safetyNumber := digest combined
  let fingerprint := safetyNumber.take 12
  ({ safetyNumber := safetyNumber, fingerprint := fingerprint, isVerified := false }, p.2)


theorem stringOfBufferBase64_encode (s : String) :
    stringOfBufferBase64 (bufferBase64OfString s) = some s := by
  unfold stringOfBufferBase64 bufferBase64OfString
  rw [show (String.mk (Wire.base64Encode (utf8Encode s.data))).data =
      Wire.base64Encode (utf8Encode s.data) from rfl]
  rw [Wire.base64_decode_encode _ (utf8Encode_bytes_lt s.data)]
  show (utf8Decode (utf8Encode s.data)).map String.mk = some s
  rw [utf8_decode_encode]
  rfl

theorem mapGet_mapSet_self {α : Type} (l : List (String × α)) (k : String) (v : α) :
    mapGet (mapSet l k v) k = some v := by
  induction l with
  | nil =>
    simp [mapSet, mapGet, List.find?]
  | cons p ps ih =>
    by_cases hp : p.1 == k
    · simp only [mapSet, if_pos hp]
      simp [mapGet, List.find?]
    · simp only [mapSet, if_neg hp]
      simp only [mapGet, List.find?, hp]
      exact ih

theorem mapGet_mapSet_ne {α : Type} (l : List (String × α)) (k k' : String) (v : α)
    (h : k' ≠ k) : mapGet (mapSet l k v) k' = mapGet l k' := by
  induction l with
  | nil =>
    simp only [mapSet, mapGet, List.find?]
    have : (k == k') = false := by
      simp only [beq_eq_false_iff_ne, ne_eq]
      exact fun he => h he.symm
    rw [this]
  | cons p ps ih =>
    by_cases hp : p.1 == k
    · simp only [mapSet, if_pos hp]
      have hk : (k == k') = false := by
        simp only [beq_eq_false_iff_ne, ne_eq]
        exact fun he => h he.symm
      have hpk : (p.1 == k') = false := by
        have hpe : p.1 = k := by
          exact eq_of_beq hp
        rw [hpe]
        exact hk
      simp only [mapGet, List.find?, hk, hpk]
    · simp only [mapSet, if_neg hp]
      simp only [mapGet, List.find?] at *
      cases hcase : (p.1 == k') with
      | true => rfl
      | false => exact ih

/-- Sample envelope used by concrete witnesses. -/
def sampleMessage : EncryptedMessage :=
  { messageId := "m1", senderId := "alice", recipientId := "bob",
    content := "hello", type := .text, timestamp := 5 }

/-- The decrypted form of `sampleMessage`. -/
def sampleDecrypted : DecryptedMessage :=
  { messageId := "m1", senderId := "alice", recipientId := "bob",
    content := "hello", type := .text, timestamp := 5, plaintext := "hello" }

/-- Opaque payload carrying `sampleMessage`. -/
def samplePayload : String :=
  bufferBase64OfString (String.mk (stringifyMessage sampleMessage))

/-- C1 (amended): for a session id with no registered Session,
`encryptText`, `decryptText` and `encryptMessage` fail with exactly the
SessionNotFound error and never succeed or fail otherwise, while
`decryptMessage` never consults the session store: its result is
independent of the registered sessions, and when it fails at all it
fails with `DECRYPTION_FAILED`, never with SessionNotFound. -/
theorem C1_session_errors (st : CryptoState) (now : Nat) (sid text payload : String)
    (msg : EncryptedMessage) (h : mapGet st.sessions sid = none) :
    encryptText st now sid text = .error sessionNotFoundError ∧
    decryptText st now sid payload = .error sessionNotFoundError ∧
    encryptMessage st now sid msg = .error sessionNotFoundError ∧
    (∀ st2 : CryptoState, decryptMessage st sid payload = decryptMessage st2 sid payload) ∧
    (∀ e, decryptMessage st sid payload = .error e → e = decryptionFailedError) := by
  refine ⟨?_, ?_, ?_, ?_, ?_⟩
  · unfold encryptText
    rw [h]
  · unfold decryptText
    rw [h]
  · unfold encryptMessage encryptText
    rw [h]
  · intro st2
    rfl
  · intro e he
    unfold decryptMessage at he
    split at he
    · exact (Except.error.inj he).symm
    · split at he
      · exact (Except.error.inj he).symm
      · exact absurd he (by simp)

/-- Witness for C1_session_errors at a concrete unknown session id. -/
theorem C1_session_errors_witness :
    mapGet emptyState.sessions "missing_session" = none ∧
    (encryptText emptyState 0 "missing_session" "hi" = .error sessionNotFoundError ∧
     decryptText emptyState 0 "missing_session" "aGk=" = .error sessionNotFoundError ∧
     encryptMessage emptyState 0 "missing_session" sampleMessage =
       .error sessionNotFoundError ∧
     (∀ st2 : CryptoState, decryptMessage emptyState "missing_session" "aGk=" =
       decryptMessage st2 "missing_session" "aGk=") ∧
     (∀ e, decryptMessage emptyState "missing_session" "aGk=" = .error e →
       e = decryptionFailedError)) :=
  ⟨rfl, C1_session_errors emptyState 0 "missing_session" "hi" "aGk=" sampleMessage rfl⟩

/-- Counterexample to C1 as frozen: with an empty session store (so no
Session is registered under "missing_session"), `decryptMessage`
nevertheless succeeds on a well-formed payload — it does not fail with
SessionNotFound. -/
theorem C1_counterexample :
    mapGet emptyState.sessions "missing_session" = none ∧
    decryptMessage emptyState "missing_session" samplePayload = .ok sampleDecrypted := by
  constructor
  · rfl
  · unfold decryptMessage samplePayload
    rw [stringOfBufferBase64_encode]
    simp only [parseMessage_stringify]
    rfl

/-- C2: establishing a session from a bundle with non-empty identityKey
and preKey, then encrypting any envelope on the created session's id and
decrypting the resulting opaque payload on that same id, recovers the
original envelope's content and type exactly. -/
theorem C2_establish_encrypt_decrypt_roundtrip (st : CryptoState) (now1 now2 : Nat)
    (peerId deviceId : String) (bundle : PreKeyBundle) (msg : EncryptedMessage)
    (hik : bundle.identityKey ≠ "") (hpk : bundle.preKey ≠ "") :
    ∃ (session : Session) (st1 : CryptoState) (payload : String) (st2 : CryptoState)
      (dm : DecryptedMessage),
      establishSession st now1 peerId deviceId bundle = .ok (session, st1) ∧
      encryptMessage st1 now2 session.id msg = .ok (payload, st2) ∧
      decryptMessage st2 session.id payload = .ok dm ∧
      dm.content = msg.content ∧ dm.type = msg.type := by
  have hne : ¬(bundle.identityKey = "" ∨ bundle.preKey = "") := by
    intro hcontra
    rcases hcontra with hcontra | hcontra
    · exact hik hcontra
    · exact hpk hcontra
  refine ⟨mkSession peerId deviceId now1,
          { st with sessions :=
              mapSet st.sessions (peerId ++ "_" ++ deviceId) (mkSession peerId deviceId now1) },
          bufferBase64OfString (String.mk (stringifyMessage msg)),
          { st with sessions :=
              mapSet (mapSet st.sessions (peerId ++ "_" ++ deviceId)
                       (mkSession peerId deviceId now1)) (peerId ++ "_" ++ deviceId)
                     ({ mkSession peerId deviceId now1 with lastUsed := now2 }) },
          { messageId := msg.messageId, senderId := msg.senderId,
            recipientId := msg.recipientId, content := msg.content, type := msg.type,
            timestamp := msg.timestamp, plaintext := msg.content }, ?_, ?_, ?_, rfl, rfl⟩
  · unfold establishSession
    rw [if_neg hne]
  · show encryptMessage _ now2 (mkSession peerId deviceId now1).id msg = _
    unfold encryptMessage encryptText
    rw [show (mkSession peerId deviceId now1).id = peerId ++ "_" ++ deviceId from rfl,
      mapGet_mapSet_self]
  · unfold decryptMessage
    rw [stringOfBufferBase64_encode]
    simp only [parseMessage_stringify]

/-- Witness for the C2 theorem at the concrete bundle of the spec's
scenario. -/
theorem C2_roundtrip_witness :
    ∃ (session : Session) (st1 : CryptoState) (payload : String) (st2 : CryptoState)
      (dm : DecryptedMessage),
      establishSession emptyState 0 "bob" "device1"
        { identityKey := "idA", deviceId := "device1", preKeyId := "pk1",
          preKey := "pkA", signedPreKeyId := "spk1", signedPreKey := "spkA",
          signature := "sig" } = .ok (session, st1) ∧
      encryptMessage st1 1 session.id sampleMessage = .ok (payload, st2) ∧
      decryptMessage st2 session.id payload = .ok dm ∧
      dm.content = sampleMessage.content ∧ dm.type = sampleMessage.type :=
  C2_establish_encrypt_decrypt_roundtrip emptyState 0 1 "bob" "device1" _ sampleMessage
    (by decide) (by decide)

/-- C8: `generateSafetyNumber` is deterministic under a persisted local
identity: the result does not depend on the time/randomness environment,
a second call (on the state the first call returns) yields the identical
safety number and fingerprint, the safety number is the digest of the
public identity key joined with the peer and device ids, and the
fingerprint is its first 12 characters. -/
theorem C8_safety_number_deterministic (digest : String → String) (st : CryptoState)
    (kp : IdentityKeyPair) (peerId deviceId : String) (env1 env2 : Env)
    (h : st.identityKeyPair = some kp ∨
         (st.identityKeyPair = none ∧ st.storedIdentity = some kp)) :
    generateSafetyNumber digest st env1 peerId deviceId =
      generateSafetyNumber digest st env2 peerId deviceId ∧
    (generateSafetyNumber digest st env1 peerId deviceId).1 =
      (generateSafetyNumber digest
        (generateSafetyNumber digest st env1 peerId deviceId).2 env2 peerId deviceId).1 ∧
    (generateSafetyNumber digest st env1 peerId deviceId).1.safetyNumber =
      digest (kp.publicKey ++ "_" ++ peerId ++ "_" ++ deviceId) ∧
    (generateSafetyNumber digest st env1 peerId deviceId).1.fingerprint =
      (digest (kp.publicKey ++ "_" ++ peerId ++ "_" ++ deviceId)).take 12 := by
  rcases h with h | ⟨h1, h2⟩
  · have hget : ∀ env, getIdentityKeyPair digest st env = (kp, st) := by
      intro env
      unfold getIdentityKeyPair
      rw [h]
    simp [generateSafetyNumber, hget]
  · have hget : ∀ env, getIdentityKeyPair digest st env =
        (kp, { st with identityKeyPair := some kp }) := by
      intro env
      unfold getIdentityKeyPair
      rw [h1, h2]
    have hget2 : ∀ env, getIdentityKeyPair digest { st with identityKeyPair := some kp } env =
        (kp, { st with identityKeyPair := some kp }) := by
      intro env
      unfold getIdentityKeyPair
      rfl
    simp [generateSafetyNumber, hget, hget2]

/-- Witness for C8 at a concrete digest, identity and peer. -/
theorem C8_safety_number_deterministic_witness :
    generateSafetyNumber (fun s => s)
        { emptyState with identityKeyPair := some { publicKey := "pub", privateKey := "priv" } }
        { now := 3, rand1 := "r1", rand2 := "r2" } "peer" "dev" =
      generateSafetyNumber (fun s => s)
        { emptyState with identityKeyPair := some { publicKey := "pub", privateKey := "priv" } }
        { now := 9, rand1 := "z1", rand2 := "z2" } "peer" "dev" ∧
    (generateSafetyNumber (fun s => s)
        { emptyState with identityKeyPair := some { publicKey := "pub", privateKey := "priv" } }
        { now := 3, rand1 := "r1", rand2 := "r2" } "peer" "dev").1 =
      (generateSafetyNumber (fun s => s)
        (generateSafetyNumber (fun s => s)
          { emptyState with identityKeyPair := some { publicKey := "pub", privateKey := "priv" } }
          { now := 3, rand1 := "r1", rand2 := "r2" } "peer" "dev").2
        { now := 9, rand1 := "z1", rand2 := "z2" } "peer" "dev").1 ∧
    (generateSafetyNumber (fun s => s)
        { emptyState with identityKeyPair := some { publicKey := "pub", privateKey := "priv" } }
        { now := 3, rand1 := "r1", rand2 := "r2" } "peer" "dev").1.safetyNumber =
      (fun s => s) ("pub" ++ "_" ++ "peer" ++ "_" ++ "dev") ∧
    (generateSafetyNumber (fun s => s)
        { emptyState with identityKeyPair := some { publicKey := "pub", privateKey := "priv" } }
        { now := 3, rand1 := "r1", rand2 := "r2" } "peer" "dev").1.fingerprint =
      ((fun s => s : String → String) ("pub" ++ "_" ++ "peer" ++ "_" ++ "dev")).take 12 :=
  C8_safety_number_deterministic (fun s => s)
    { emptyState with identityKeyPair := some { publicKey := "pub", privateKey := "priv" } }
    { publicKey := "pub", privateKey := "priv" } "peer" "dev"
    { now := 3, rand1 := "r1", rand2 := "r2" } { now := 9, rand1 := "z1", rand2 := "z2" }
    (Or.inl rfl)

end Crypto

namespace ChatStore

/-- Delivery status of a tracked message (types/index.ts). -/
inductive MsgStatus
  | sending
  | sent
  | delivered
  | read
  | failed
deriving DecidableEq, Repr

/-- Client-visible message record (types/index.ts); optional fields are
`Option`s, `status` is absent on inbound records. -/
structure Message where
  id : String
  sender_id : String
  recipient_id : Option String
  group_id : Option String
  encrypted_content : String
  message_type : Crypto.MsgType
  created_at : String
  status : Option MsgStatus
deriving DecidableEq, Repr

/-- A `Partial<Message>`: present fields override on spread-merge. -/
structure MessagePatch where
  id : Option String
  sender_id : Option String
  recipient_id : Option (Option String)
  group_id : Option (Option String)
  encrypted_content : Option String
  message_type : Option Crypto.MsgType
  created_at : Option String
  status : Option (Option MsgStatus)
deriving DecidableEq, Repr

/-- The empty patch (no keys present). -/
def emptyPatch : MessagePatch :=
  { id := none, sender_id := none, recipient_id := none, group_id := none,
    encrypted_content := none, message_type := none, created_at := none, status := none }

/-- The `{ status: 'failed' }` patch of the send-failure path. -/
def failedPatch : MessagePatch := { emptyPatch with status := some (some .failed) }

/-- The `{ ...sentMessage, status: 'sent' }` patch of the send-success
path: every field of the server record plus the overriding status. -/
def patchOfSent (sent : Message) : MessagePatch :=
  { id := some sent.id, sender_id := some sent.sender_id,
    recipient_id := some sent.recipient_id, group_id := some sent.group_id,
    encrypted_content := some sent.encrypted_content,
    message_type := some sent.message_type, created_at := some sent.created_at,
    status := some (some .sent) }

/-- JavaScript spread-merge `{ ...msg, ...updates }`. -/
def applyPatch (msg : Message) (p : MessagePatch) : Message :=
  { id := p.id.getD msg.id, sender_id := p.sender_id.getD msg.sender_id,
    recipient_id := p.recipient_id.getD msg.recipient_id,
    group_id := p.group_id.getD msg.group_id,
    encrypted_content := p.encrypted_content.getD msg.encrypted_content,
    message_type := p.message_type.getD msg.message_type,
    created_at := p.created_at.getD msg.created_at,
    status := p.status.getD msg.status }

/-- chatStore.addMessage: appends to the visible list. -/
def addMessage (messages : List Message) (message : Message) : List Message :=
  messages ++ [message]

/-- chatStore.updateMessage: maps the patch over the record with the
given id, leaving every other record untouched. -/
def updateMessage (messages : List Message) (messageId : String) (updates : MessagePatch) :
    List Message :=
  messages.map (fun msg => if msg.id == messageId then applyPatch msg updates else msg)

/-- Receipt kinds (delivered/read). -/
inductive ReceiptKind
  | delivered
  | read
deriving DecidableEq, Repr

/-- Body of `apiService.sendReceipt`. -/
structure ReceiptRequest where
  message_id : String
  type : ReceiptKind
deriving DecidableEq, Repr

/-- chatStore.markMessagesAsRead: returns early on an empty id list,
otherwise submits one read receipt per id.  It performs no read-check
and does not touch the local message list — the store state is returned
unchanged alongside the dispatched receipts. -/
def markMessagesAsRead (messages : List Message) (messageIds : List String) :
    List Message × List ReceiptRequest :=
  if messageIds.isEmpty then (messages, [])
  else (messages, messageIds.map (fun i => { message_id := i, type := ReceiptKind.read }))

/-- The unread-message filter of the ChatScreen effect: inbound messages
of the open conversation whose status is absent or not 'read'. -/
def unreadMessageIds (messages : List Message) (participantId userId : String) :
    List String :=
  (messages.filter (fun msg =>
    msg.sender_id == participantId && msg.recipient_id == some userId &&
      msg.status != some MsgStatus.read)).map (fun msg => msg.id)

/-- The ChatScreen unread-messages effect: collects unread inbound ids
and, when there are any, runs `markMessagesAsRead` over them. -/
def receiptPathDispatch (messages : List Message) (participantId userId : String) :
    List Message × List ReceiptRequest :=
  let unread := unreadMessageIds messages participantId userId
  if unread.length > 0 then markMessagesAsRead messages unread else (messages, [])

/-- The mock prekey bundle sendMessage uses when no session exists; only
identityKey and preKey are present on the `any`-typed literal, and only
those two fields are ever read. -/
def mockPreKeyBundle : Crypto.PreKeyBundle :=
  { identityKey := "mock", deviceId := "", preKeyId := "", preKey := "mock",
    signedPreKeyId := "", signedPreKey := "", signature := "" }

/-- Result of one run of chatStore.sendMessage. -/
structure SendResult where
  messages : List Message
  crypto : Crypto.CryptoState
  error : Option String
  threw : Bool

/-- chatStore.sendMessage, as a function of the store submission outcome
`api` (the external apiService.sendMessage collaborator): get or
establish the session, encrypt (once for the optimistic record, once for
the submitted payload), add the temporary 'sending' record, submit, and
on success replace it by the server record with status 'sent', on error
set status 'failed' and surface the error (re-thrown to the caller). -/
def sendMessage (messages : List Message) (cst : Crypto.CryptoState)
    (userId targetId content : String) (ty : Crypto.MsgType) (isGroup : Bool) (now : Nat)
    (api : Except String Message) : SendResult :=
  let tempId := "temp_" ++ Crypto.natString now
  let deviceId := "mock-device-id"
  let sessionId := if isGroup then targetId else targetId ++ "_" ++ deviceId
  let sessionRes : Except Crypto.CryptoErr (Crypto.Session × Crypto.CryptoState) :=
    match Crypto.mapGet cst.sessions sessionId with
    | some s => .ok (s, cst)
    | none => Crypto.establishSession cst now targetId deviceId mockPreKeyBundle
  match sessionRes with
  | .error e =>
    { messages := updateMessage messages tempId failedPatch, crypto := cst,
      error := some e.message, threw := true }
  | .ok (session, cst1) =>
    let envelope : Crypto.EncryptedMessage :=
      { messageId := tempId, senderId := userId, recipientId := targetId,
        content := content, type := ty, timestamp := now }
    match Crypto.encryptMessage cst1 now session.id envelope with
    | .error e =>
      { messages := updateMessage messages tempId failedPatch, crypto := cst1,
        error := some e.message, threw := true }
    | .ok (enc1, cst2) =>
      let tempMessage : Message :=
        { id := tempId, sender_id := userId,
          recipient_id := if isGroup then none else some targetId,
          group_id := if isGroup then some targetId else none,
          encrypted_content := enc1, message_type := ty,
          created_at := Crypto.natString now, status := some .sending }
      let messages1 := addMessage messages tempMessage
      match Crypto.encryptMessage cst2 now session.id envelope with
      | .error e =>
        { messages := updateMessage messages1 tempId failedPatch, crypto := cst2,
          error := some e.message, threw := true }
      | .ok (_, cst3) =>
        match api with
        | .ok sentMessage =>
          { messages := updateMessage messages1 tempId (patchOfSent sentMessage),
            crypto := cst3, error := none, threw := false }
        | .error emsg =>
          { messages := updateMessage messages1 tempId failedPatch, crypto := cst3,
            error := some emsg, threw := true }

/-- An inbound message of the open conversation, not yet marked read. -/
def cexInboundMessage : Message :=
  { id := "m1", sender_id := "2", recipient_id := some "1", group_id := none,
    encrypted_content := "x", message_type := .text, created_at := "t", status := none }

/-- A one-message store for the receipt-path counterexample. -/
def cexMessages : List Message := [cexInboundMessage]

/-- The same store with the message explicitly marked read. -/
def cexReadMessages : List Message := [{ cexInboundMessage with status := some .read }]

/-- C3 (amended): `markMessagesAsRead` never changes the local message
list and dispatches exactly one read receipt per given id, with no
read-check of its own; only the ChatScreen unread-messages effect
filters, and it never selects a message whose status is 'read'.  Because
nothing is marked read locally, idempotence holds only for messages
whose stored status is already 'read'. -/
theorem C3_markRead_behavior :
    (∀ (messages : List Message) (messageIds : List String),
      (markMessagesAsRead messages messageIds).1 = messages) ∧
    (∀ (messages : List Message) (messageIds : List String), messageIds ≠ [] →
      (markMessagesAsRead messages messageIds).2 =
        messageIds.map (fun i => { message_id := i, type := ReceiptKind.read })) ∧
    (∀ (messages : List Message) (participantId userId i : String),
      i ∈ unreadMessageIds messages participantId userId →
      ∃ m, m ∈ messages ∧ m.id = i ∧ m.status ≠ some MsgStatus.read) := by
  refine ⟨?_, ?_, ?_⟩
  · intro messages messageIds
    unfold markMessagesAsRead
    split <;> rfl
  · intro messages messageIds h
    have hne : messageIds.isEmpty = false := by
      cases messageIds with
      | nil => exact absurd rfl h
      | cons a l => rfl
    unfold markMessagesAsRead
    rw [hne]
    simp
  · intro messages participantId userId i hi
    unfold unreadMessageIds at hi
    obtain ⟨m, hmf, hid⟩ := List.mem_map.mp hi
    obtain ⟨hm, hpred⟩ := List.mem_filter.mp hmf
    refine ⟨m, hm, hid, ?_⟩
    simp only [Bool.and_eq_true, bne_iff_ne, ne_eq] at hpred
    exact hpred.2

/-- Witness for C3_markRead_behavior at a concrete store and id list. -/
theorem C3_markRead_behavior_witness :
    (markMessagesAsRead cexMessages ["m1"]).1 = cexMessages ∧
    (markMessagesAsRead cexMessages ["m1"]).2 =
      [{ message_id := "m1", type := ReceiptKind.read }] ∧
    (∃ m, m ∈ cexMessages ∧ m.id = "m1" ∧ m.status ≠ some MsgStatus.read) :=
  ⟨C3_markRead_behavior.1 cexMessages ["m1"],
   C3_markRead_behavior.2.1 cexMessages ["m1"] (by decide),
   C3_markRead_behavior.2.2 cexMessages "2" "1" "m1" (by decide)⟩

/-- Counterexample to C3 as frozen: after the receipt path has run once
over the store (dispatching a read receipt for "m1"), the local store is
unchanged — nothing was marked read — so re-running the path over the
same messages dispatches a second receipt for "m1"; and invoking
`markMessagesAsRead` directly on an id whose message is already marked
read still dispatches a receipt for it. -/
theorem C3_counterexample :
    (receiptPathDispatch cexMessages "2" "1").2 =
      [{ message_id := "m1", type := ReceiptKind.read }] ∧
    (receiptPathDispatch cexMessages "2" "1").1 = cexMessages ∧
    (receiptPathDispatch (receiptPathDispatch cexMessages "2" "1").1 "2" "1").2 =
      [{ message_id := "m1", type := ReceiptKind.read }] ∧
    (markMessagesAsRead cexReadMessages ["m1"]).2 =
      [{ message_id := "m1", type := ReceiptKind.read }] := by
  refine ⟨?_, ?_, ?_, ?_⟩ <;> decide

theorem updateMessage_append (l1 l2 : List Message) (mid : String) (p : MessagePatch) :
    updateMessage (l1 ++ l2) mid p = updateMessage l1 mid p ++ updateMessage l2 mid p := by
  unfold updateMessage
  exact List.map_append _ _ _

theorem updateMessage_of_not_mem (l : List Message) (mid : String) (p : MessagePatch)
    (h : ∀ m ∈ l, m.id ≠ mid) : updateMessage l mid p = l := by
  unfold updateMessage
  induction l with
  | nil => rfl
  | cons m ms ih =>
    simp only [List.map_cons]
    have hm : (m.id == mid) = false := by
      simp only [beq_eq_false_iff_ne, ne_eq]
      exact h m (by simp)
    rw [hm]
    simp only [Bool.false_eq_true, if_false, List.cons.injEq, true_and]
    exact ih (fun x hx => h x (by simp [hx]))

theorem update_failed_shape (messages : List Message) (tempMessage : Message) (tempId : String)
    (hid : tempMessage.id = tempId) (hfresh : ∀ m ∈ messages, m.id ≠ tempId) :
    updateMessage (addMessage messages tempMessage) tempId failedPatch =
      messages ++ [{ tempMessage with status := some MsgStatus.failed }] := by
  unfold addMessage
  rw [updateMessage_append, updateMessage_of_not_mem messages tempId failedPatch hfresh]
  congr 1
  unfold updateMessage
  simp only [List.map_cons, List.map_nil]
  rw [show (tempMessage.id == tempId) = true by simp [hid]]
  rfl

theorem filter_single_temp (messages : List Message) (tm : Message) (tempId : String)
    (hid : tm.id = tempId) (hfresh : ∀ m ∈ messages, m.id ≠ tempId) :
    ((messages ++ [tm]).filter (fun m => m.id == tempId)).length = 1 := by
  rw [List.filter_append]
  have h1 : messages.filter (fun m => m.id == tempId) = [] := by
    rw [List.filter_eq_nil]
    intro m hm
    simp [hfresh m hm]
  rw [h1]
  simp [hid]

/-- The envelope `sendMessage` hands to the crypto layer. -/
def tempEnvelope (userId targetId content : String) (ty : Crypto.MsgType) (now : Nat) :
    Crypto.EncryptedMessage :=
  { messageId := "temp_" ++ Crypto.natString now, senderId := userId,
    recipientId := targetId, content := content, type := ty, timestamp := now }

/-- The optimistic temporary record `sendMessage` inserts with status
'sending'. -/
def tempSendingMessage (userId targetId content : String) (ty : Crypto.MsgType)
    (isGroup : Bool) (now : Nat) : Message :=
  { id := "temp_" ++ Crypto.natString now, sender_id := userId,
    recipient_id := if isGroup then none else some targetId,
    group_id := if isGroup then some targetId else none,
    encrypted_content := Crypto.bufferBase64OfString
      (String.mk (Crypto.stringifyMessage (tempEnvelope userId targetId content ty now))),
    message_type := ty, created_at := Crypto.natString now,
    status := some MsgStatus.sending }

/-- C4: when the store submission fails, the visible list afterwards is
the original list plus exactly one record for the send — the temporary
record, now with status 'failed' — with no duplicates and the temporary
record never removed; the error is surfaced and re-thrown. -/
theorem C4_failed_send (messages : List Message) (cst : Crypto.CryptoState)
    (userId targetId content : String) (ty : Crypto.MsgType) (isGroup : Bool) (now : Nat)
    (emsg : String)
    (hfresh : ∀ m ∈ messages, m.id ≠ "temp_" ++ Crypto.natString now)
    (hwf : ∀ k s, Crypto.mapGet cst.sessions k = some s → s.id = k) :
    ∃ tm : Message,
      (sendMessage messages cst userId targetId content ty isGroup now
        (.error emsg)).messages = messages ++ [tm] ∧
      tm.id = "temp_" ++ Crypto.natString now ∧
      tm.status = some MsgStatus.failed ∧
      ((sendMessage messages cst userId targetId content ty isGroup now
          (.error emsg)).messages.filter
        (fun m => m.id == "temp_" ++ Crypto.natString now)).length = 1 ∧
      (sendMessage messages cst userId targetId content ty isGroup now
        (.error emsg)).error = some emsg ∧
      (sendMessage messages cst userId targetId content ty isGroup now
        (.error emsg)).threw = true := by
  have hmockne : ¬(mockPreKeyBundle.identityKey = "" ∨ mockPreKeyBundle.preKey = "") := by
    decide
  have hex : ∃ cstX, sendMessage messages cst userId targetId content ty isGroup now
      (.error emsg) =
      { messages := updateMessage
          (addMessage messages (tempSendingMessage userId targetId content ty isGroup now))
          ("temp_" ++ Crypto.natString now) failedPatch,
        crypto := cstX, error := some emsg, threw := true } := by
    simp only [sendMessage]
    cases hget : Crypto.mapGet cst.sessions
        (if isGroup then targetId else targetId ++ "_" ++ "mock-device-id") with
    | some s =>
      have hsid := hwf _ _ hget
      have henc1 : Crypto.mapGet cst.sessions s.id = some s := by
        rw [hsid]
        exact hget
      exact ⟨_, by
        simp only [hget, Crypto.encryptMessage, Crypto.encryptText, henc1,
          Crypto.mapGet_mapSet_self, tempSendingMessage, tempEnvelope]
        rfl⟩
    | none =>
      have hkey : Crypto.mapGet
          (Crypto.mapSet cst.sessions (targetId ++ "_" ++ "mock-device-id")
            (Crypto.mkSession targetId "mock-device-id" now))
          (Crypto.mkSession targetId "mock-device-id" now).id =
          some (Crypto.mkSession targetId "mock-device-id" now) := by
        rw [show (Crypto.mkSession targetId "mock-device-id" now).id =
            targetId ++ "_" ++ "mock-device-id" from rfl]
        exact Crypto.mapGet_mapSet_self _ _ _
      exact ⟨_, by
        simp only [hget, Crypto.establishSession, if_neg hmockne, Crypto.encryptMessage,
          Crypto.encryptText, hkey, Crypto.mapGet_mapSet_self, tempSendingMessage,
          tempEnvelope]
        rfl⟩
  obtain ⟨cstX, hrun⟩ := hex
  refine ⟨{ tempSendingMessage userId targetId content ty isGroup now with
            status := some MsgStatus.failed }, ?_, rfl, rfl, ?_, ?_, ?_⟩
  · rw [hrun]
    exact update_failed_shape _ _ _ rfl hfresh
  · rw [hrun]
    show ((updateMessage
        (addMessage messages (tempSendingMessage userId targetId content ty isGroup now))
        ("temp_" ++ Crypto.natString now) failedPatch).filter
      (fun m => m.id == "temp_" ++ Crypto.natString now)).length = 1
    rw [update_failed_shape messages
      (tempSendingMessage userId targetId content ty isGroup now)
      ("temp_" ++ Crypto.natString now) rfl hfresh]
    exact filter_single_temp messages
      ({ tempSendingMessage userId targetId content ty isGroup now with
         status := some MsgStatus.failed })
      ("temp_" ++ Crypto.natString now) rfl hfresh
  · rw [hrun]
  · rw [hrun]

/-- Witness for C4 at a concrete failed send from an empty store. -/
theorem C4_failed_send_witness :
    ∃ tm : Message,
      (sendMessage [] Crypto.emptyState "1" "2" "hi" Crypto.MsgType.text false 0
        (.error "network error")).messages = [] ++ [tm] ∧
      tm.id = "temp_" ++ Crypto.natString 0 ∧
      tm.status = some MsgStatus.failed ∧
      ((sendMessage [] Crypto.emptyState "1" "2" "hi" Crypto.MsgType.text false 0
          (.error "network error")).messages.filter
        (fun m => m.id == "temp_" ++ Crypto.natString 0)).length = 1 ∧
      (sendMessage [] Crypto.emptyState "1" "2" "hi" Crypto.MsgType.text false 0
        (.error "network error")).error = some "network error" ∧
      (sendMessage [] Crypto.emptyState "1" "2" "hi" Crypto.MsgType.text false 0
        (.error "network error")).threw = true :=
  C4_failed_send [] Crypto.emptyState "1" "2" "hi" Crypto.MsgType.text false 0
    "network error" (by simp)
    (by
      intro k s h
      simp [Crypto.mapGet, List.find?] at h)

end ChatStore

namespace WS

/-- Connection status values of the client WebSocketService. -/
inductive WSStatus
  | connecting
  | connected
  | disconnected
  | error
deriving DecidableEq, Repr

/-- State of the WebSocketService singleton: current status, reconnect
bookkeeping and the two timers (the reconnect timer carries the
scheduled delay, the ping timer is a flag). -/
structure WSState where
  status : WSStatus
  reconnectAttempts : Nat
  reconnectDelay : Nat
  maxReconnectAttempts : Nat
  maxReconnectDelay : Nat
  reconnectTimer : Option Nat
  pingTimer : Bool
deriving DecidableEq, Repr

/-- Field values on construction (and after `connect` resets the
attempt counter). -/
def initState : WSState :=
  { status := .disconnected, reconnectAttempts := 0, reconnectDelay := 1000,
    maxReconnectAttempts := 5, maxReconnectDelay := 30000, reconnectTimer := none,
    pingTimer := false }

/-- Externally triggered transitions: the socket opening, closing with a
code, erroring, or the pending reconnect timer firing. -/
inductive WSEvent
  | opened
  | close (code : Nat)
  | error
  | timerFire
deriving DecidableEq, Repr

/-- Output of one handler run: the successor state, the statuses pushed
to `onStatusChange` (only on change, by `setStatus`), and the newly
scheduled reconnect delay, if any. -/
structure StepOut where
  state : WSState
  emitted : List WSStatus
  scheduled : Option Nat
deriving DecidableEq, Repr

/-- WebSocketService.setStatus: notify the handler only on change. -/
def setStatus (s : WSState) (st : WSStatus) : WSState × List WSStatus :=
  if s.status ≠ st then ({ s with status := st }, [st]) else (s, [])

/-- WebSocketService.scheduleReconnect: clear any pending timer, bump
the attempt counter, compute `min (delay * 2^(attempts-1)) maxDelay` and
arm the timer with it. -/
def scheduleReconnect (s : WSState) : WSState × Option Nat :=
  let attempts := s.reconnectAttempts + 1
  let delay := min (s.reconnectDelay * 2 ^ (attempts - 1)) s.maxReconnectDelay
  ({ s with reconnectAttempts := attempts, reconnectTimer := some delay }, some delay)

/-- WebSocketService.handleOpen: status connected, counters reset to
baseline, ping timer armed. -/
def handleOpen (s : WSState) : StepOut :=
  let p := setStatus s .connected
  { state := { p.1 with reconnectAttempts := 0, reconnectDelay := 1000, pingTimer := true },
    emitted := p.2, scheduled := none }

/-- WebSocketService.handleClose: status disconnected, ping timer
stopped; a reconnect is scheduled only for an abnormal code (≠ 1000)
while attempts remain below the ceiling. -/
def handleClose (s : WSState) (code : Nat) : StepOut :=
  let p := setStatus s .disconnected
  let s1 : WSState := { p.1 with pingTimer := false }
  if code ≠ 1000 ∧ s1.reconnectAttempts < s1.maxReconnectAttempts then
    let q := scheduleReconnect s1
    { state := q.1, emitted := p.2, scheduled := q.2 }
  else
    { state := s1, emitted := p.2, scheduled := none }

/-- WebSocketService.handleError: status error (notified on change). -/
def handleError (s : WSState) : StepOut :=
  let p := setStatus s .error
  { state := p.1, emitted := p.2, scheduled := none }

/-- The reconnect timer firing runs establishConnection, which opens a
new socket and sets status connecting. -/
def timerFire (s : WSState) : StepOut :=
  let s0 := { s with reconnectTimer := none }
  let p := setStatus s0 .connecting
  { state := p.1, emitted := p.2, scheduled := none }

/-- One event-handler dispatch. -/
def step (s : WSState) : WSEvent → StepOut
  | .opened => handleOpen s
  | .close code => handleClose s code
  | .error => handleError s
  | .timerFire => timerFire s

/-- A run over an event list, accumulating emitted statuses and
scheduled reconnect delays in order. -/
def run (s : WSState) : List WSEvent → WSState × List WSStatus × List Nat
  | [] => (s, [], [])
  | e :: es =>
    let o := step s e
    let r := run o.state es
    (r.1, o.emitted ++ r.2.1,
     (match o.scheduled with | some d => [d] | none => []) ++ r.2.2)

theorem handleClose_emitted (s : WSState) (code : Nat) :
    (step s (.close code)).emitted = [] ∨
    (step s (.close code)).emitted = [WSStatus.disconnected] := by
  unfold step handleClose setStatus
  by_cases hs : s.status ≠ WSStatus.disconnected
  · simp only [if_pos hs]
    split
    · right
      rfl
    · right
      rfl
  · simp only [if_neg hs]
    split
    · left
      rfl
    · left
      rfl

theorem handleClose_sched_none (s : WSState) (code : Nat)
    (h : ¬(code ≠ 1000 ∧ s.reconnectAttempts < s.maxReconnectAttempts)) :
    (step s (.close code)).scheduled = none ∧
    (step s (.close code)).state.reconnectAttempts = s.reconnectAttempts ∧
    (step s (.close code)).state.maxReconnectAttempts = s.maxReconnectAttempts := by
  unfold step handleClose setStatus
  by_cases hs : s.status ≠ WSStatus.disconnected
  · simp only [if_pos hs]
    rw [if_neg h]
    exact ⟨rfl, rfl, rfl⟩
  · simp only [if_neg hs]
    rw [if_neg h]
    exact ⟨rfl, rfl, rfl⟩

theorem handleClose_sched_some (s : WSState) (code : Nat)
    (h : code ≠ 1000 ∧ s.reconnectAttempts < s.maxReconnectAttempts) :
    (step s (.close code)).scheduled =
      some (min (s.reconnectDelay * 2 ^ (s.reconnectAttempts + 1 - 1)) s.maxReconnectDelay) ∧
    (step s (.close code)).state.reconnectAttempts = s.reconnectAttempts + 1 ∧
    (step s (.close code)).state.maxReconnectAttempts = s.maxReconnectAttempts := by
  unfold step handleClose setStatus scheduleReconnect
  by_cases hs : s.status ≠ WSStatus.disconnected
  · simp only [if_pos hs]
    rw [if_pos h]
    exact ⟨rfl, rfl, rfl⟩
  · simp only [if_neg hs]
    rw [if_pos h]
    exact ⟨rfl, rfl, rfl⟩

theorem step_error_fields (s : WSState) :
    (step s .error).scheduled = none ∧
    (step s .error).state.reconnectAttempts = s.reconnectAttempts ∧
    (step s .error).state.maxReconnectAttempts = s.maxReconnectAttempts := by
  have hstep : step s .error = handleError s := rfl
  rw [hstep]
  unfold handleError setStatus
  split <;> exact ⟨rfl, rfl, rfl⟩

theorem step_timer_fields (s : WSState) :
    (step s .timerFire).scheduled = none ∧
    (step s .timerFire).state.reconnectAttempts = s.reconnectAttempts ∧
    (step s .timerFire).state.maxReconnectAttempts = s.maxReconnectAttempts := by
  have hstep : step s .timerFire = timerFire s := rfl
  rw [hstep]
  by_cases hs : s.status ≠ WSStatus.connecting <;>
    simp [timerFire, setStatus, hs]

theorem run_sched_bound (evs : List WSEvent) :
    ∀ s : WSState, (∀ e ∈ evs, e ≠ WSEvent.opened) →
      s.reconnectAttempts ≤ s.maxReconnectAttempts →
      (run s evs).2.2.length + s.reconnectAttempts ≤ s.maxReconnectAttempts := by
  induction evs with
  | nil =>
    intro s _ hle
    simpa [run] using hle
  | cons e es ih =>
    intro s hno hle
    have hnoes : ∀ x ∈ es, x ≠ WSEvent.opened := fun x hx => hno x (by simp [hx])
    simp only [run]
    cases e with
    | opened => exact absurd rfl (hno .opened (by simp))
    | close code =>
      by_cases hc : code ≠ 1000 ∧ s.reconnectAttempts < s.maxReconnectAttempts
      · obtain ⟨hsched, hatt, hmax⟩ := handleClose_sched_some s code hc
        rw [hsched]
        have := ih (step s (.close code)).state hnoes (by omega)
        simp only [List.length_append, List.length_cons, List.length_nil]
        omega
      · obtain ⟨hsched, hatt, hmax⟩ := handleClose_sched_none s code hc
        rw [hsched]
        have := ih (step s (.close code)).state hnoes (by omega)
        simp only [List.length_append, List.length_nil]
        omega
    | error =>
      obtain ⟨hsched, hatt, hmax⟩ := step_error_fields s
      rw [hsched]
      have := ih (step s .error).state hnoes (by omega)
      simp only [List.length_append, List.length_nil]
      omega
    | timerFire =>
      obtain ⟨hsched, hatt, hmax⟩ := step_timer_fields s
      rw [hsched]
      have := ih (step s .timerFire).state hnoes (by omega)
      simp only [List.length_append, List.length_nil]
      omega

theorem step_delay (s : WSState) (e : WSEvent) (h : s.reconnectDelay = 1000) :
    (step s e).state.reconnectDelay = 1000 := by
  cases e with
  | opened =>
    by_cases hs : s.status ≠ WSStatus.connected <;>
      simp [step, handleOpen, setStatus, hs]
  | close code =>
    by_cases hs : s.status ≠ WSStatus.disconnected <;>
      by_cases hc : code ≠ 1000 ∧ s.reconnectAttempts < s.maxReconnectAttempts <;>
        simp [step, handleClose, setStatus, scheduleReconnect, hs, hc, h]
  | error =>
    by_cases hs : s.status ≠ WSStatus.error <;>
      simp [step, handleError, setStatus, hs, h]
  | timerFire =>
    by_cases hs : s.status ≠ WSStatus.connecting <;>
      simp [step, timerFire, setStatus, hs, h]

theorem run_delay (evs : List WSEvent) :
    ∀ s : WSState, s.reconnectDelay = 1000 → (run s evs).1.reconnectDelay = 1000 := by
  induction evs with
  | nil =>
    intro s h
    simpa [run] using h
  | cons e es ih =>
    intro s h
    simp only [run]
    exact ih _ (step_delay s e h)

/-- C9: on an abnormal closure below the attempt ceiling the scheduled
reconnect delay is min(1000·2^(n−1), 30000) for the nth attempt (the
`reconnectDelay` base stays 1000 in every reachable state), and reaching
Connected resets the attempt counter and delay to 0 and 1000. -/
theorem C9_backoff_and_reset (s : WSState) (code : Nat)
    (hdelay : s.reconnectDelay = 1000) (hmaxd : s.maxReconnectDelay = 30000)
    (hcode : code ≠ 1000) (hlt : s.reconnectAttempts < s.maxReconnectAttempts) :
    (step s (.close code)).scheduled =
      some (min (1000 * 2 ^ (s.reconnectAttempts + 1 - 1)) 30000) ∧
    (step s (.close code)).state.reconnectAttempts = s.reconnectAttempts + 1 ∧
    (step s .opened).state.reconnectAttempts = 0 ∧
    (step s .opened).state.reconnectDelay = 1000 ∧
    (∀ evs, (run initState evs).1.reconnectDelay = 1000) := by
  obtain ⟨h1, h2, _⟩ := handleClose_sched_some s code ⟨hcode, hlt⟩
  refine ⟨?_, h2, ?_, ?_, fun evs => run_delay evs initState rfl⟩
  · rw [h1, hdelay, hmaxd]
  · by_cases hs : s.status ≠ WSStatus.connected <;>
      simp [step, handleOpen, setStatus, hs]
  · by_cases hs : s.status ≠ WSStatus.connected <;>
      simp [step, handleOpen, setStatus, hs]

/-- The state right after the service reaches Connected. -/
def connState : WSState := (step initState WSEvent.opened).state

/-- Witness for C9 at the freshly connected state and close code 1006. -/
theorem C9_backoff_and_reset_witness :
    (step connState (.close 1006)).scheduled =
      some (min (1000 * 2 ^ (connState.reconnectAttempts + 1 - 1)) 30000) ∧
    (step connState (.close 1006)).state.reconnectAttempts =
      connState.reconnectAttempts + 1 ∧
    (step connState .opened).state.reconnectAttempts = 0 ∧
    (step connState .opened).state.reconnectDelay = 1000 ∧
    (∀ evs, (run initState evs).1.reconnectDelay = 1000) :=
  C9_backoff_and_reset connState 1006 (by decide) (by decide) (by decide) (by decide)

/-- C5 (amended): the close handler emits only 'disconnected' — never an
'error' status — to the status-change handler; once the attempt counter
has reached the ceiling an abnormal closure schedules no reconnect; and
any run from the initial state without a successful open schedules at
most 5 reconnect attempts in total. -/
theorem C5_retry_ceiling_no_error_status :
    (∀ (s : WSState) (code : Nat) (st : WSStatus),
      st ∈ (step s (.close code)).emitted → st = WSStatus.disconnected) ∧
    (∀ (s : WSState) (code : Nat), s.maxReconnectAttempts ≤ s.reconnectAttempts →
      (step s (.close code)).scheduled = none) ∧
    (∀ evs : List WSEvent, (∀ e ∈ evs, e ≠ WSEvent.opened) →
      (run initState evs).2.2.length ≤ 5) := by
  refine ⟨?_, ?_, ?_⟩
  · intro s code st hmem
    rcases handleClose_emitted s code with h | h <;> rw [h] at hmem <;> simp at hmem
    exact hmem
  · intro s code h
    exact (handleClose_sched_none s code (fun hc => by omega)).1
  · intro evs hno
    have := run_sched_bound evs initState hno (by decide)
    simpa [initState] using this

/-- A run of five consecutive abnormal-closure/reconnect cycles. -/
def cexCloseTrace : List WSEvent :=
  [.close 1006, .timerFire, .close 1006, .timerFire, .close 1006, .timerFire,
   .close 1006, .timerFire, .close 1006]

/-- Witness for C5_retry_ceiling_no_error_status at concrete inputs. -/
theorem C5_retry_ceiling_witness :
    (WSStatus.disconnected = WSStatus.disconnected) ∧
    (step { initState with reconnectAttempts := 5 } (.close 1006)).scheduled = none ∧
    (run initState cexCloseTrace).2.2.length ≤ 5 :=
  ⟨C5_retry_ceiling_no_error_status.1 connState 1006 WSStatus.disconnected (by decide),
   C5_retry_ceiling_no_error_status.2.1 { initState with reconnectAttempts := 5 } 1006
     (by decide),
   C5_retry_ceiling_no_error_status.2.2 cexCloseTrace (by decide)⟩

/-- Counterexample to C5 as frozen: a run of 5 consecutive abnormal
closures (the configured ceiling) from the connected state schedules 5
reconnect attempts, yet the number of 'error' statuses emitted to the
status-change handler is 0, not exactly 1 — the close path reports
'disconnected' and the service never surfaces an error state on retry
exhaustion. -/
theorem C5_counterexample :
    (run connState cexCloseTrace).2.1.count WSStatus.error = 0 ∧
    (run connState cexCloseTrace).2.2.length = 5 ∧
    (0 : Nat) ≠ 1 := by
  decide

end WS

namespace Hub

/-- A websocket client as the Hub sees it: identity, owning user and the
buffered outbound queue (`send chan []byte`). -/
structure Client where
  cid : Nat
  userID : String
  sendQueue : List (List Nat)
deriving DecidableEq, Repr

/-- Capacity of the per-client send channel (`make(chan []byte, 256)` in
ServeWS). -/
def sendQueueCap : Nat := 256

/-- The Hub's registry: the global client set and the user → client
index `userClients`. -/
structure HubState where
  clients : List Client
  userClients : List (String × List Nat)
deriving DecidableEq, Repr


/-- The successful `client.send <- data` case: the payload is appended
to the addressed client's bounded queue. -/
def enqueueClients (clients : List Client) (cid : Nat) (data : List Nat) : List Client :=
  clients.map (fun c2 =>
    if c2.cid == cid then { c2 with sendQueue := c2.sendQueue ++ [data] } else c2)

/-- The `default:` case's `delete(h.clients, client)`. -/
def dropClient (clients : List Client) (cid : Nat) : List Client :=
  clients.filter (fun c2 => c2.cid != cid)

/-- The `default:` case's bucket cleanup: remove the client from the
user's bucket and delete the user's entry when the bucket empties. -/
def dropFromBucket (userClients : List (String × List Nat)) (userID : String) (cid : Nat) :
    List (String × List Nat) :=
  let bucket := (Crypto.mapGet userClients userID).getD []
  let bucket' := bucket.filter (fun y => y != cid)
  if bucket' = [] then userClients.filter (fun p => p.1 != userID)
  else Crypto.mapSet userClients userID bucket'

/-- The fan-out loop of SendToUser over one user's bucket: a client with
queue space gets the payload enqueued (recorded as a delivery); a client
with a full queue is dropped from the global set and from the bucket
(removing the user's entry when the bucket empties), exactly the
`select { case client.send <- data: default: ... }` branches. -/
def sendLoop (userID : String) (data : List Nat) :
    HubState → List Nat → HubState × List (Nat × List Nat)
  | h, [] => (h, [])
  | h, cid :: rest =>
    match h.clients.find? (fun c => c.cid == cid) with
    | none => sendLoop userID data h rest
    | some c =>
      if c.sendQueue.length < sendQueueCap then
        let r := sendLoop userID data
          { h with clients := enqueueClients h.clients cid data } rest
        (r.1, (cid, data) :: r.2)
      else
        sendLoop userID data
          { clients := dropClient h.clients cid,
            userClients := dropFromBucket h.userClients userID cid } rest

/-- Hub.SendToUser: marshal the message once; if the user has no bucket,
return silently; otherwise fan the single serialized payload out over
the bucket.  Returns the new registry and the (cid, payload) deliveries. -/
def SendToUser {α : Type} (marshal : α → Option (List Nat)) (h : HubState)
    (userID : String) (message : α) : HubState × List (Nat × List Nat) :=
  match marshal message with
  | none => (h, [])
  | some data =>
    match Crypto.mapGet h.userClients userID with
    | none => (h, [])
    | some bucket => sendLoop userID data h bucket

theorem find_cid_unique (clients : List Client) (c : Client)
    (hnodup : (clients.map (fun x => x.cid)).Nodup) (hc : c ∈ clients) :
    clients.find? (fun x => x.cid == c.cid) = some c := by
  induction clients with
  | nil => exact absurd hc (List.not_mem_nil c)
  | cons x rest ih =>
    simp only [List.map_cons, List.nodup_cons] at hnodup
    obtain ⟨hxnot, hrestnodup⟩ := hnodup
    by_cases hx : (x.cid == c.cid)
    · have hxc : x.cid = c.cid := eq_of_beq hx
      rcases List.mem_cons.mp hc with rfl | hcrest
      · simp [List.find?, hx]
      · exfalso
        exact hxnot (hxc ▸ List.mem_map_of_mem (fun y => y.cid) hcrest)
    · have hcrest : c ∈ rest := by
        rcases List.mem_cons.mp hc with rfl | hcrest
        · exact absurd (beq_self_eq_true c.cid) (by simpa using hx)
        · exact hcrest
      simp only [List.find?, Bool.not_eq_true] at *
      rw [show (x.cid == c.cid) = false from by simpa using hx]
      exact ih hrestnodup hcrest

theorem mem_enqueueClients (clients : List Client) (cid : Nat) (data : List Nat)
    (c : Client) (hc : c ∈ clients) (hne : c.cid ≠ cid) :
    c ∈ enqueueClients clients cid data := by
  unfold enqueueClients
  have himg := List.mem_map_of_mem
    (fun c2 => if c2.cid == cid then { c2 with sendQueue := c2.sendQueue ++ [data] }
     else c2) hc
  simpa [show (c.cid == cid) = false from by simpa using hne] using himg

theorem enqueueClients_map_cid (clients : List Client) (cid : Nat) (data : List Nat) :
    (enqueueClients clients cid data).map (fun y => y.cid) =
      clients.map (fun y => y.cid) := by
  unfold enqueueClients
  rw [List.map_map]
  apply List.map_congr_left
  intro a _
  by_cases ha : a.cid = cid <;> simp [ha]

theorem mem_dropClient (clients : List Client) (cid : Nat) (c : Client)
    (hc : c ∈ clients) (hne : c.cid ≠ cid) : c ∈ dropClient clients cid := by
  unfold dropClient
  simp only [List.mem_filter]
  exact ⟨hc, by simpa using hne⟩

theorem dropClient_map_cid_nodup (clients : List Client) (cid : Nat)
    (hnodup : (clients.map (fun y => y.cid)).Nodup) :
    ((dropClient clients cid).map (fun y => y.cid)).Nodup := by
  unfold dropClient
  have hsub : (clients.filter (fun c2 => c2.cid != cid)).Sublist clients :=
    List.filter_sublist clients
  exact (hsub.map (fun y => y.cid)).nodup hnodup

theorem sendLoop_deliveries_sub (userID : String) (data : List Nat) :
    ∀ (lst : List Nat) (h : HubState) (cid : Nat) (payload : List Nat),
      (cid, payload) ∈ (sendLoop userID data h lst).2 → payload = data ∧ cid ∈ lst := by
  intro lst
  induction lst with
  | nil =>
    intro h cid payload hmem
    simp [sendLoop] at hmem
  | cons x rest ih =>
    intro h cid payload hmem
    rcases hfind : h.clients.find? (fun c => c.cid == x) with _ | c
    · simp only [sendLoop, hfind] at hmem
      obtain ⟨hp, hm⟩ := ih _ _ _ hmem
      exact ⟨hp, by simp [hm]⟩
    · by_cases hq : c.sendQueue.length < sendQueueCap
      · simp only [sendLoop, hfind, if_pos hq] at hmem
        rcases List.mem_cons.mp hmem with hhd | htl
        · injection hhd with h1 h2
          exact ⟨h2, by simp [h1]⟩
        · obtain ⟨hp, hm⟩ := ih _ _ _ htl
          exact ⟨hp, by simp [hm]⟩
      · simp only [sendLoop, hfind, if_neg hq] at hmem
        obtain ⟨hp, hm⟩ := ih _ _ _ hmem
        exact ⟨hp, by simp [hm]⟩

theorem sendLoop_frame (userID : String) (data : List Nat) :
    ∀ (lst : List Nat) (h : HubState) (c : Client),
      c ∈ h.clients → c.cid ∉ lst → c ∈ (sendLoop userID data h lst).1.clients := by
  intro lst
  induction lst with
  | nil =>
    intro h c hc _
    simpa [sendLoop] using hc
  | cons x rest ih =>
    intro h c hc hnot
    have hne : c.cid ≠ x := fun he => hnot (by simp [he])
    have hnrest : c.cid ∉ rest := fun he => hnot (by simp [he])
    rcases hfind : h.clients.find? (fun c2 => c2.cid == x) with _ | c0
    · simp only [sendLoop, hfind]
      exact ih h c hc hnrest
    · by_cases hq : c0.sendQueue.length < sendQueueCap
      · simp only [sendLoop, hfind, if_pos hq]
        exact ih _ _ (mem_enqueueClients h.clients x data c hc hne) hnrest
      · simp only [sendLoop, hfind, if_neg hq]
        exact ih _ _ (mem_dropClient h.clients x c hc hne) hnrest

theorem sendLoop_delivers (userID : String) (data : List Nat) :
    ∀ (lst : List Nat) (h : HubState) (c : Client),
      (h.clients.map (fun x => x.cid)).Nodup → lst.Nodup →
      c ∈ h.clients → c.cid ∈ lst → c.sendQueue.length < sendQueueCap →
      (c.cid, data) ∈ (sendLoop userID data h lst).2 := by
  intro lst
  induction lst with
  | nil =>
    intro h c _ _ _ hmem _
    exact absurd hmem (List.not_mem_nil _)
  | cons x rest ih =>
    intro h c hnodupc hnodupl hc hmem hq
    simp only [List.nodup_cons] at hnodupl
    obtain ⟨hxnot, hrestnodup⟩ := hnodupl
    rcases List.mem_cons.mp hmem with hhd | htl
    · have hfind : h.clients.find? (fun c2 => c2.cid == x) = some c := by
        rw [← hhd]
        exact find_cid_unique h.clients c hnodupc hc
      simp only [sendLoop, hfind, if_pos hq]
      simp [hhd]
    · have hne : c.cid ≠ x := fun he => hxnot (he ▸ htl)
      rcases hfind : h.clients.find? (fun c2 => c2.cid == x) with _ | c0
      · simp only [sendLoop, hfind]
        exact ih h c hnodupc hrestnodup hc htl hq
      · by_cases hq0 : c0.sendQueue.length < sendQueueCap
        · simp only [sendLoop, hfind, if_pos hq0]
          have hnodup2 : ((enqueueClients h.clients x data).map (fun y => y.cid)).Nodup := by
            rw [enqueueClients_map_cid]
            exact hnodupc
          have hrec := ih { h with clients := enqueueClients h.clients x data } c hnodup2
            hrestnodup (mem_enqueueClients h.clients x data c hc hne) htl hq
          simp only [List.mem_cons]
          right
          exact hrec
        · simp only [sendLoop, hfind, if_neg hq0]
          exact ih { clients := dropClient h.clients x,
                     userClients := dropFromBucket h.userClients userID x } c
            (dropClient_map_cid_nodup h.clients x hnodupc) hrestnodup
            (mem_dropClient h.clients x c hc hne) htl hq

/-- C6 (amended): SendToUser serializes the message once and delivers
that identical payload to exactly the addressed user's connections that
have queue space — every delivery carries the single serialized payload
and goes to a connection in the user's bucket; every bucket connection
with queue space receives it; and every connection outside the bucket
(in particular every other user's) is left untouched in the registry. -/
theorem C6_send_to_user {α : Type} (marshal : α → Option (List Nat)) (h : HubState)
    (userID : String) (message : α) (bucket : List Nat) (data : List Nat)
    (hmarshal : marshal message = some data)
    (hbucket : Crypto.mapGet h.userClients userID = some bucket)
    (hnodupc : (h.clients.map (fun c => c.cid)).Nodup)
    (hnodupb : bucket.Nodup) :
    (∀ cid payload, (cid, payload) ∈ (SendToUser marshal h userID message).2 →
      payload = data ∧ cid ∈ bucket) ∧
    (∀ c ∈ h.clients, c.cid ∈ bucket → c.sendQueue.length < sendQueueCap →
      (c.cid, data) ∈ (SendToUser marshal h userID message).2) ∧
    (∀ c ∈ h.clients, c.cid ∉ bucket →
      c ∈ (SendToUser marshal h userID message).1.clients) := by
  unfold SendToUser
  rw [hmarshal, hbucket]
  refine ⟨?_, ?_, ?_⟩
  · intro cid payload hmem
    exact sendLoop_deliveries_sub userID data bucket h cid payload hmem
  · intro c hc hcb hq
    exact sendLoop_delivers userID data bucket h c hnodupc hnodupb hc hcb hq
  · intro c hc hcb
    exact sendLoop_frame userID data bucket h c hc hcb

/-- A hub with two connections for user u1 and one for u2, all queues
empty. -/
def sampleHub : HubState :=
  { clients := [{ cid := 1, userID := "u1", sendQueue := [] },
                { cid := 2, userID := "u1", sendQueue := [] },
                { cid := 3, userID := "u2", sendQueue := [] }],
    userClients := [("u1", [1, 2]), ("u2", [3])] }

/-- Witness for C6 at the two-user sample hub. -/
theorem C6_send_to_user_witness :
    (∀ cid payload,
      (cid, payload) ∈ (SendToUser (fun _ : Unit => some [7]) sampleHub "u1" ()).2 →
      payload = [7] ∧ cid ∈ [1, 2]) ∧
    (∀ c ∈ sampleHub.clients, c.cid ∈ [1, 2] → c.sendQueue.length < sendQueueCap →
      (c.cid, [7]) ∈ (SendToUser (fun _ : Unit => some [7]) sampleHub "u1" ()).2) ∧
    (∀ c ∈ sampleHub.clients, c.cid ∉ [1, 2] →
      c ∈ (SendToUser (fun _ : Unit => some [7]) sampleHub "u1" ()).1.clients) :=
  C6_send_to_user (fun _ : Unit => some [7]) sampleHub "u1" () [1, 2] [7]
    rfl (by decide) (by decide) (by decide)

/-- A hub whose single u1 connection has a full send queue. -/
def fullQueueHub : HubState :=
  { clients := [{ cid := 1, userID := "u1", sendQueue := List.replicate 256 [0] }],
    userClients := [("u1", [1])] }

set_option maxRecDepth 4096 in
/-- Counterexample to C6 as frozen: connection 1 is registered under
"u1", yet SendToUser delivers the payload to no connection at all — the
full-queue connection is dropped from the registry instead of receiving
the message. -/
theorem C6_counterexample :
    Crypto.mapGet fullQueueHub.userClients "u1" = some [1] ∧
    (SendToUser (fun _ : Unit => some [7]) fullQueueHub "u1" ()).2 = [] ∧
    (SendToUser (fun _ : Unit => some [7]) fullQueueHub "u1" ()).1.clients = [] ∧
    (SendToUser (fun _ : Unit => some [7]) fullQueueHub "u1" ()).1.userClients = [] := by
  refine ⟨rfl, ?_, ?_, ?_⟩ <;> decide

/-- C10: SendToUser for a user with no registered connection is a
silent no-op: no delivery happens and the registry (global client set
and every user's bucket) is returned unchanged. -/
theorem C10_send_to_unknown_user {α : Type} (marshal : α → Option (List Nat))
    (h : HubState) (userID : String) (message : α)
    (hnone : Crypto.mapGet h.userClients userID = none) :
    SendToUser marshal h userID message = (h, []) := by
  unfold SendToUser
  cases marshal message with
  | none => rfl
  | some data =>
    rw [hnone]

/-- Witness for C10 at the sample hub and an unknown user id. -/
theorem C10_send_to_unknown_user_witness :
    SendToUser (fun _ : Unit => some [7]) sampleHub "u3" () = (sampleHub, []) :=
  C10_send_to_unknown_user (fun _ : Unit => some [7]) sampleHub "u3" () (by decide)

end Hub

namespace Handlers

/-- A row of the receipts table; the conflict target of the insert is
(message_id, user_id, type).  UUIDs are modelled as naturals. -/
structure ReceiptRow where
  id : Nat
  message_id : Nat
  user_id : Nat
  rtype : String
  created_at : Nat
deriving DecidableEq, Repr

/-- The part of a messages-table row SendReceipt reads. -/
structure MsgRow where
  id : Nat
  sender_id : Nat
deriving DecidableEq, Repr

/-- Server database state touched by SendReceipt. -/
structure DB where
  receipts : List ReceiptRow
  messages : List MsgRow
deriving DecidableEq, Repr

/-- The message_receipt payload pushed to the sender. -/
structure Notification where
  ntype : String
  message_id : Nat
  user_id : Nat
  rtype : String
  created_at : Nat
deriving DecidableEq, Repr

/-- The `INSERT ... ON CONFLICT (message_id, user_id, type) DO NOTHING`:
when a row with the same conflict key exists the store is unchanged,
otherwise the row is appended. -/
def insertReceiptRow (receipts : List ReceiptRow) (r : ReceiptRow) : List ReceiptRow :=
  if receipts.any (fun q =>
      q.message_id == r.message_id && q.user_id == r.user_id && q.rtype == r.rtype)
  then receipts
  else receipts ++ [r]

/-- Handlers.SendReceipt after body decode and uuid parsing (failures of
those return 400 before any state change): build the receipt row, insert
with ON CONFLICT DO NOTHING, then unconditionally look up the message's
sender and, when found, push a message_receipt notification to them via
the hub; respond with the built receipt.  Returns the new database, the
(recipient, notification) pushes and the response row. -/
def SendReceipt (db : DB) (userID messageID : Nat) (rtype : String) (newID now : Nat) :
    DB × List (Nat × Notification) × ReceiptRow :=
  let receipt : ReceiptRow :=
    { id := newID, message_id := messageID, user_id := userID, rtype := rtype,
      created_at := now }
  let receipts2 := insertReceiptRow db.receipts receipt
  let notification : Notification :=
    { ntype := "message_receipt", message_id := messageID, user_id := userID,
      rtype := rtype, created_at := now }
  let sent :=
    match db.messages.find? (fun m => m.id == messageID) with
    | some m => [(m.sender_id, notification)]
    | none => []
  ({ db with receipts := receipts2 }, sent, receipt)

/-- C7 (amended): re-delivering a receipt whose (message id, user id,
kind) key is already present leaves the receipt store unchanged — the
insert is ON CONFLICT DO NOTHING — but the message_receipt notification
to the message's sender is re-sent on every delivery: the handler
notifies unconditionally after the insert attempt. -/
theorem C7_duplicate_receipt (db : DB) (userID messageID : Nat) (rtype : String)
    (newID now : Nat) (m : MsgRow)
    (hdup : ∃ q ∈ db.receipts, q.message_id = messageID ∧ q.user_id = userID ∧
      q.rtype = rtype)
    (hmsg : db.messages.find? (fun x => x.id == messageID) = some m) :
    (SendReceipt db userID messageID rtype newID now).1.receipts = db.receipts ∧
    (SendReceipt db userID messageID rtype newID now).2.1 =
      [(m.sender_id,
        { ntype := "message_receipt", message_id := messageID, user_id := userID,
          rtype := rtype, created_at := now })] := by
  have hany : db.receipts.any (fun q =>
      q.message_id == messageID && q.user_id == userID && q.rtype == rtype) = true := by
    obtain ⟨q, hqmem, h1, h2, h3⟩ := hdup
    rw [List.any_eq_true]
    exact ⟨q, hqmem, by simp [h1, h2, h3]⟩
  unfold SendReceipt insertReceiptRow
  rw [hmsg]
  constructor
  · show (if db.receipts.any _ = true then db.receipts else _) = db.receipts
    rw [if_pos hany]
  · rfl

/-- A one-receipt database used by the C7 witness and counterexample. -/
def cexDB : DB :=
  { receipts := [{ id := 0, message_id := 1, user_id := 2, rtype := "read",
                   created_at := 0 }],
    messages := [{ id := 1, sender_id := 9 }] }

/-- Witness for C7_duplicate_receipt at the concrete database. -/
theorem C7_duplicate_receipt_witness :
    (SendReceipt cexDB 2 1 "read" 5 10).1.receipts = cexDB.receipts ∧
    (SendReceipt cexDB 2 1 "read" 5 10).2.1 =
      [(9, { ntype := "message_receipt", message_id := 1, user_id := 2,
             rtype := "read", created_at := 10 })] :=
  C7_duplicate_receipt cexDB 2 1 "read" 5 10 { id := 1, sender_id := 9 }
    ⟨{ id := 0, message_id := 1, user_id := 2, rtype := "read", created_at := 0 },
     by decide, rfl, rfl, rfl⟩ (by decide)

/-- Counterexample to C7 as frozen: the receipt (message 1, user 2,
read) is already stored, and re-delivering it leaves the store unchanged
but sends a further message_receipt notification to the sender — the
notification list is not empty. -/
theorem C7_counterexample :
    (SendReceipt cexDB 2 1 "read" 5 10).1.receipts = cexDB.receipts ∧
    (SendReceipt cexDB 2 1 "read" 5 10).2.1 ≠ [] ∧
    ((SendReceipt cexDB 2 1 "read" 5 10).2.1.map Prod.fst) = [9] := by
  refine ⟨?_, ?_, ?_⟩ <;> decide

end Handlers
